import Mathlib

/-!
Verification of the Fidelity CSV statement parser

This file is a shallow embedding, in Lean 4, of the Fidelity CSV parser
(`ofxstatement_fidelity/plugin.py`): the row normalizer, the action
classifier, the identifier generator and the statement assembler.  Python
strings are Lean `String`s (manipulated through their character lists, with
the Python string operations re-implemented faithfully), Python `Decimal`
values are exact scaled integers (`Dec` below), `datetime` values are
calendar dates (`Date` below), row-scoped exceptions are `Except Unit`, and
the parser's mutable object state is threaded explicitly (`ParserState`).
-/

/-! ## Python string primitives -/

/-- Python `str.strip()` (whitespace stripped from both ends). -/
def pyStrip (s : String) : String :=
  ⟨((s.data.dropWhile Char.isWhitespace).reverse.dropWhile Char.isWhitespace).reverse⟩

/-- Python `str.lower()` (ASCII case folding, which is all the source needs). -/
def pyLower (s : String) : String :=
  ⟨s.data.map Char.toLower⟩

/-- Python `value.replace(",", ".")`. -/
def commaToDot (s : String) : String :=
  ⟨s.data.map (fun c => if c = ',' then '.' else c)⟩

/-- Python `value.replace(" ", "")`. -/
def removeSpaces (s : String) : String :=
  ⟨s.data.filter (fun c => c ≠ ' ')⟩

/-- Python `s.lstrip("﻿")`: drop leading byte-order marks. -/
def stripBOM (s : String) : String :=
  ⟨s.data.dropWhile (fun c => c = '﻿')⟩

/-- Python `s.startswith(pre)` / the `re.match` of a literal prefix pattern. -/
def pyStartsWith (s pre : String) : Bool :=
  pre.data.isPrefixOf s.data

/-- Whether `pat` occurs as a contiguous substring of `l`. -/
def listContainsSub (pat : List Char) : List Char → Bool
  | [] => pat.isEmpty
  | c :: rest => pat.isPrefixOf (c :: rest) || listContainsSub pat rest

/-- Python `s.split(sep)` for a one-character separator (keeps empty pieces). -/
def splitOnChar (sep : Char) : List Char → List (List Char)
  | [] => [[]]
  | c :: rest =>
    let r := splitOnChar sep rest
    if c = sep then [] :: r
    else
      match r with
      | h :: t => (c :: h) :: t
      | [] => [[c]]

/-- Python `s[:n]`. -/
def pyTake (s : String) (n : Nat) : String :=
  ⟨s.data.take n⟩

/-- `os.path.basename`: the part of the path after the last slash. -/
def pyBasename (s : String) : String :=
  ⟨(splitOnChar '/' s.data).getLastD []⟩

/-! ## Decimal values

Python `Decimal` values produced by this parser are exact decimal numbers;
we model them as a scaled integer: `mant / 10 ^ exp`.  The sign of the value
is the sign of `mant`, and the value is zero exactly when `mant = 0`. -/

structure Dec where
  mant : Int
  exp : Nat
deriving DecidableEq, Repr

/-- The represented value is zero (Python `Decimal.__eq__` against 0). -/
def Dec.isZero (d : Dec) : Bool :=
  d.mant = 0

/-- The represented value is ≥ 0 (Python `Decimal.__ge__` against 0). -/
def Dec.nonneg (d : Dec) : Bool :=
  0 ≤ d.mant

/-- Numeric value of a digit list read in base 10. -/
def digitsToNat (l : List Char) : Nat :=
  l.foldl (fun a c => 10 * a + (c.toNat - 48)) 0

/-- Unsigned part of the numeric lexer: digits with at most one decimal
point and at least one digit somewhere. -/
def parseUnsigned (rest : List Char) : Option Dec :=
  let ip := rest.takeWhile Char.isDigit
  let rest2 := rest.dropWhile Char.isDigit
  if rest2 = [] then
    if ip.isEmpty then none else some ⟨(digitsToNat ip : Int), 0⟩
  else if rest2.head? = some '.' && rest2.tail.all Char.isDigit
          && !(ip.isEmpty && rest2.tail.isEmpty) then
    some ⟨(digitsToNat ip : Int) * (10 : Int) ^ rest2.tail.length
            + (digitsToNat rest2.tail : Int), rest2.tail.length⟩
  else none

/-- Shared numeric lexer for Python `float(..)` and `Decimal(..)` on the
number strings this data contains: an optional sign, then digits with at
most one decimal point and at least one digit.  (Exponent forms, infinities
and NaNs never occur in the CSV cells and are not modelled.)  Returns
`none` where Python raises `ValueError`/`InvalidOperation`. -/
def parseNumber (s : String) : Option Dec :=
  let l := s.data
  if l.head? = some '-' then (parseUnsigned l.tail).map (fun d => ⟨-d.mant, d.exp⟩)
  else if l.head? = some '+' then parseUnsigned l.tail
  else parseUnsigned l

/-- Python `float(value)` as used in the zero-amount filter: parse the raw
cell (float tolerates surrounding whitespace), `none` = `ValueError`. -/
def pyFloat (s : String) : Option Dec :=
  parseNumber (pyStrip s)

/-- `FidelityCSVParser.parse_decimal`: `None`, `""` and `"--"` map to
absent; otherwise `,` becomes `.`, spaces are removed, and the result is
parsed as a decimal (an unparsable string raises, modelled as `.error`). -/
def parse_decimal (value : Option String) : Except Unit (Option Dec) :=
  match value with
  | none => .ok none
  | some v =>
    let cleaned := pyStrip v
    if cleaned = "" || cleaned = "--" then .ok none
    else
      match parseNumber (removeSpaces (commaToDot cleaned)) with
      | some d => .ok (some d)
      | none => .error ()

/-! ## Dates -/

structure Date where
  year : Nat
  month : Nat
  day : Nat
deriving DecidableEq, Repr

/-- Chronological key: `datetime` comparison on valid dates. -/
def Date.code (d : Date) : Nat :=
  d.year * 10000 + d.month * 100 + d.day

def isLeapYear (y : Nat) : Bool :=
  y % 4 = 0 && (y % 100 ≠ 0 || y % 400 = 0)

def daysInMonth (y m : Nat) : Nat :=
  if m = 2 then (if isLeapYear y then 29 else 28)
  else if m = 4 || m = 6 || m = 9 || m = 11 then 30
  else 31

/-- One candidate format of `datetime.strptime` over `mm/dd/yyyy`
(`twoDigitYear = false`) or `mm/dd/yy` (`twoDigitYear = true`), including
the century-inference rule for `%y` and the calendar validation performed
by the `datetime` constructor. -/
def tryDateFormat (twoDigitYear : Bool) (s : String) : Option Date :=
  match splitOnChar '/' s.data with
  | [ms, ds, ys] =>
    if ms.all Char.isDigit && decide (1 ≤ ms.length) && decide (ms.length ≤ 2) &&
       ds.all Char.isDigit && decide (1 ≤ ds.length) && decide (ds.length ≤ 2) &&
       ys.all Char.isDigit &&
       (if twoDigitYear then decide (ys.length = 2) else decide (ys.length = 4)) then
      let m := digitsToNat ms
      let d := digitsToNat ds
      let yraw := digitsToNat ys
      let y := if twoDigitYear then (if yraw ≤ 68 then 2000 + yraw else 1900 + yraw) else yraw
      if decide (1 ≤ m) && decide (m ≤ 12) && decide (1 ≤ d) && decide (d ≤ daysInMonth y m)
         && decide (1 ≤ y) then
        some ⟨y, m, d⟩
      else none
    else none
  | _ => none

/-- The local `parse_us_date` helper: try `%m/%d/%Y` then `%m/%d/%y` on the
first ten characters; `none` models the final `ValueError`. -/
def parse_us_date (s : String) : Option Date :=
  let t := pyTake s 10
  match tryDateFormat false t with
  | some d => some d
  | none => tryDateFormat true t

/-- Zero-padded decimal rendering of a natural number to width `w`. -/
def padNat (w n : Nat) : String :=
  let s := Nat.repr n
  ⟨List.replicate (w - s.data.length) '0' ++ s.data⟩

/-- `datetime.strftime(date, "%Y%m%d")`. -/
def fmtDate (d : Date) : String :=
  padNat 4 d.year ++ padNat 2 d.month ++ padNat 2 d.day

/-- `min` of two dates as Python computes it over `datetime` values. -/
def dateMin (a b : Date) : Date :=
  if b.code < a.code then b else a

/-- `max` of two dates as Python computes it over `datetime` values. -/
def dateMax (a b : Date) : Date :=
  if a.code < b.code then b else a

/-! ## Data model -/

/-- `ofxstatement.statement.InvestStatementLine`: only the fields this
parser reads or writes; all of them default to absent/empty as in the
library class. -/
structure InvestStatementLine where
  id : String := ""
  date : Option Date := none
  date_user : Option Date := none
  memo : Option String := none
  trntype : Option String := none
  trntype_detailed : Option String := none
  units : Option Dec := none
  unit_price : Option Dec := none
  security_id : Option String := none
  amount : Option Dec := none
  fees : Option Dec := none
deriving DecidableEq, Repr

/-- The parts of `ofxstatement.statement.Statement` this parser populates. -/
structure Statement where
  broker_id : String
  currency : String
  account_id : Option String
  invest_lines : List InvestStatementLine
  start_date : Option Date
  end_date : Option Date
  end_balance : Option Dec
deriving DecidableEq, Repr

/-! ## Identifier generator -/

/-- `IdGenerator.date_count`, a `dict[datetime, int]` defaulting to 0. -/
def IdCounts := Date → Nat

/-- `IdGenerator.create_id`: bump the per-date counter and render
`YYYYMMDD-N`. -/
def create_id (g : IdCounts) (d : Date) : IdCounts × String :=
  let n := g d + 1
  (fun e => if e = d then n else g e, fmtDate d ++ "-" ++ Nat.repr n)

/-! ## Parser state -/

/-- The mutable fields of `FidelityCSVParser` that evolve while rows are
parsed.  `warnings` records the `LOGGER.warning` calls made from
`parse_record` (the unknown-action fallback). -/
structure ParserState where
  column_map : List (String × Nat)
  account_number : Option String
  end_cash_balance : Option Dec
  id_gen : IdCounts
  warnings : List String

def initState : ParserState :=
  { column_map := [], account_number := none, end_cash_balance := none,
    id_gen := fun _ => 0, warnings := [] }

/-- Row cleaning (lines 85-92 of the source): strip a leading BOM from the
first cell, then strip every cell. -/
def cleanRow (line : List String) : List String :=
  (match line with
   | [] => ([] : List String)
   | c :: rest => pyStrip (stripBOM c) :: rest).map pyStrip

/-- The header-row dict comprehension
`{col: idx for idx, col in enumerate(cleaned_line) if col}`.  The list is
built reversed so that `List.lookup` (first hit) realises the Python dict's
last-key-wins overwrite. -/
def mkColumnMap (cells : List String) : List (String × Nat) :=
  ((cells.enum.filter (fun p => p.2 ≠ "")).map (fun p => (p.2, p.1))).reverse

/-- The local `column_value` helper: look the column up in the map and
fetch the cell, absent when the column is unknown or the row is short. -/
def column_value (m : List (String × Nat)) (cells : List String) (name : String) :
    Option String :=
  match m.lookup name with
  | none => none
  | some idx => cells.get? idx

/-! ## Action classifier -/

/-- `re.match(r"^REINVESTMENT .*(Cash)", action)`: the literal prefix
followed by `Cash` somewhere after it. -/
def matchesReinvestCash (a : String) : Bool :=
  pyStartsWith a "REINVESTMENT " && listContainsSub "Cash".data (a.data.drop 13)

/-- The detailed sub-kind the lenient fallback assigns (lines 261-268). -/
def fallbackDetail : Option Dec → String
  | some q => if q.nonneg then "CREDIT" else "DEBIT"
  | none => "OTHER"

/-- The `set_buy` helper of `parse_record` (closing over the record and the
parsed quantity and price). -/
def set_buy (rec : InvestStatementLine) (qv pv : Option Dec) (d : String) :
    InvestStatementLine :=
  { rec with trntype := some "BUYSTOCK", trntype_detailed := some d,
             units := qv, unit_price := pv }

/-- The `set_sell` helper of `parse_record`. -/
def set_sell (rec : InvestStatementLine) (qv pv : Option Dec) (d : String) :
    InvestStatementLine :=
  { rec with trntype := some "SELLSTOCK", trntype_detailed := some d,
             units := qv, unit_price := pv }

/-- The `set_income` helper of `parse_record`. -/
def set_income (rec : InvestStatementLine) (d : String) : InvestStatementLine :=
  { rec with trntype := some "INCOME", trntype_detailed := some d }

/-- The `set_expense` helper of `parse_record`. -/
def set_expense (rec : InvestStatementLine) : InvestStatementLine :=
  { rec with trntype := some "INVEXPENSE", trntype_detailed := none }

/-- The `set_banktran` helper of `parse_record`. -/
def set_banktran (rec : InvestStatementLine) (d : String) : InvestStatementLine :=
  { rec with trntype := some "INVBANKTRAN", trntype_detailed := some d }

/-- The outcome of the ordered pattern table: which of the source's
`set_*` helpers (or the discard / fallback paths) a given action text
selects.  Evaluation order is exactly the `if`/`elif` chain of lines
213-268. -/
inductive RuleChoice where
  | discard
  | div
  | buyBuy
  | sellSell
  | taxWithheld
  | bank (d : String)
  | fallback
deriving DecidableEq, Repr

/-- First-match-wins evaluation of the ordered rule table over the action
text (lines 213-261 of the source). -/
def classifyChoice (act : String) : RuleChoice :=
  if matchesReinvestCash act then .discard
  else if pyStartsWith act "DIVIDEND RECEIVED " then .div
  else if pyStartsWith act "YOU BOUGHT " then .buyBuy
  else if pyStartsWith act "YOU SOLD " then .sellSell
  else if pyStartsWith act "TAX WITHHELD " then .taxWithheld
  else if pyStartsWith act "INTEREST EARNED " then .bank "INT"
  else if pyStartsWith act "DIRECT DEBIT " then .bank "DEBIT"
  else if pyStartsWith act "Electronic Funds Transfer Paid " then .bank "DEBIT"
  else if pyStartsWith act "Check Paid" then .bank "DEBIT"
  else if pyStartsWith act "DEBIT CARD PURCHASE" then .bank "DEBIT"
  else if pyStartsWith act "REDEMPTION FROM CORE ACCOUNT" then .sellSell
  else if pyStartsWith act "TRANSFERRED FROM " then .bank "XFER"
  else if pyStartsWith act "DIRECT DEPOSIT " then .bank "CREDIT"
  else if act = "Contributions" then .bank "CREDIT"
  else if pyStartsWith act "WIRE TRANSFER FROM " then .bank "XFER"
  else if pyStartsWith act "WIRE TRANSFER TO " then .bank "XFER"
  else if pyStartsWith act "Electronic Funds Transfer Received" then .bank "CREDIT"
  else if pyStartsWith act "TRANSFER OF ASSETS ACAT RECEIVE" then .bank "XFER"
  else if pyStartsWith act "TRANSFER OF ASSETS ACAT DELIVER" then .bank "XFER"
  else if pyStartsWith act "TRANSFERRED TO " then .bank "XFER"
  else if pyStartsWith act "JOURNALED" then .bank "OTHER"
  else .fallback

/-- The classification chain (lines 213-268 of the source), evaluated on
the already-built record; `none` means the row is discarded (the
reinvestment-into-cash rule); the `Bool` reports whether the
unknown-action warning was logged. -/
def classify (act : String) (symbol : Option String)
    (quantity_value price_value amount_value : Option Dec)
    (rec : InvestStatementLine) : Option InvestStatementLine × Bool :=
  match classifyChoice act with
  | .discard => (none, false)
  | .div =>
    (some { set_income rec "DIV" with units := quantity_value, unit_price := price_value },
     false)
  | .buyBuy => (some (set_buy rec quantity_value price_value "BUY"), false)
  | .sellSell => (some (set_sell rec quantity_value price_value "SELL"), false)
  | .taxWithheld =>
    (some (if (match symbol with | some s => s ≠ "" | none => false) && amount_value.isSome
           then set_expense rec
           else set_banktran rec "DEBIT"), false)
  | .bank d => (some (set_banktran rec d), false)
  | .fallback => (some (set_banktran rec (fallbackDetail amount_value)), true)

/-! ## parse_record -/

/-- Line 141-142: `if account_number: self.account_number = account_number`. -/
def noteAccount (st : ParserState) (account_number : Option String) : ParserState :=
  match account_number with
  | some a => if a ≠ "" then { st with account_number := some a } else st
  | none => st

/-- Lines 155-157: capture the first parsed cash balance. -/
def noteBalance (st : ParserState) (v : Option Dec) : ParserState :=
  match v with
  | some v => if st.end_cash_balance = none then { st with end_cash_balance := some v } else st
  | none => st

/-- Line 169: `id = self.id_generator.create_id(date)`. -/
def bumpId (st : ParserState) (date : Date) : ParserState × String :=
  let gi := create_id st.id_gen date
  ({ st with id_gen := gi.1 }, gi.2)

/-- Lines 266-268: the unknown-action `LOGGER.warning` call. -/
def noteWarn (st : ParserState) (warned : Bool) (act : String) : ParserState :=
  if warned then { st with warnings := st.warnings ++ ["Unknown action: " ++ act] }
  else st

/-- Lines 149-152: the case-insensitive `"Processing"` sentinel test on the
cash-balance cell. -/
def isProcessing (cb : Option String) : Bool :=
  match cb with
  | some cb => pyLower (pyStrip cb) == "processing"
  | none => false

/-- The record as built by lines 144-187 before the classification chain
runs: memo, fees, amount, dates, provisional id, units, unit price and
security id. -/
def mkRecord (id : String) (date date_user : Date) (act : String)
    (fees_value amount_value quantity_value price_value : Option Dec)
    (symbol : Option String) : InvestStatementLine :=
  { id := id, date := some date, date_user := some date_user, memo := some act,
    fees := fees_value, amount := amount_value, units := quantity_value,
    unit_price := price_value,
    security_id := match symbol with
      | some s => if s ≠ "" then some s else none
      | none => none }


/-- `FidelityCSVParser.parse_record`: parse one CSV row.  Result is
`.error ()` when the Python code raises (the `float(amount)` conversion,
decimal coercions and date parses), otherwise the evolved state plus the
produced record, if any.  `parse_value` calls resolve to the decimal
coercion for the `fees` and `amount` fields (their declared type in
`InvestStatementLine` is `Optional[Decimal]`). -/
def parse_record (st : ParserState) (line : List String) :
    Except Unit (ParserState × Option InvestStatementLine) :=
  let cleaned_line := cleanRow line
  -- tolerate the BOM-only line and blank lines
  if cleaned_line = [] || cleaned_line = [""] then .ok (st, none)
  -- skip the header and capture column order
  else if cleaned_line.head? = some "Run Date" then
    .ok ({ st with column_map := mkColumnMap cleaned_line }, none)
  else if st.column_map = [] then .ok (st, none)
  else
    let cv := fun name => column_value st.column_map cleaned_line name
    match cv "Run Date", cv "Action" with
    | some rd, some act =>
      -- skip lines which are comments
      if rd.data.head? = some '"' then .ok (st, none)
      -- skip any line that does not begin with a digit
      else if !(match rd.data.head? with | some c => c.isDigit | none => false) then
        .ok (st, none)
      else
        -- `if not amount or float(amount) == 0: return None`
        match cv "Amount ($)" with
        | none => .ok (st, none)
        | some am =>
          if am = "" then .ok (st, none)
          else
            match pyFloat am with
            | none => .error ()
            | some fv =>
              if fv.isZero then .ok (st, none)
              else
                let st1 := noteAccount st (cv "Account Number")
                match parse_decimal (cv "Fees ($)") with
                | .error e => .error e
                | .ok fees_value =>
                match parse_decimal (some am) with
                | .error e => .error e
                | .ok amount_value =>
                  if isProcessing (cv "Cash Balance ($)") then .ok (st1, none)
                  else
                  match parse_decimal (cv "Cash Balance ($)") with
                  | .error e => .error e
                  | .ok cash_balance_value =>
                    let st2 := noteBalance st1 cash_balance_value
                    match parse_us_date rd with
                    | none => .error ()
                    | some date =>
                      let bi := bumpId st2 date
                      match (match cv "Settlement Date" with
                             | some sd => if sd ≠ "" then parse_us_date sd else some date
                             | none => some date) with
                      | none => .error ()
                      | some date_user =>
                      match parse_decimal (cv "Quantity") with
                      | .error e => .error e
                      | .ok quantity_value =>
                      match parse_decimal (cv "Price ($)") with
                      | .error e => .error e
                      | .ok price_value =>
                        let rec0 := mkRecord bi.2 date date_user act fees_value
                          amount_value quantity_value price_value (cv "Symbol")
                        let res := classify act (cv "Symbol") quantity_value price_value
                          amount_value rec0
                        .ok (noteWarn bi.1 res.2 act, res.1)
    | _, _ => .ok (st, none)

/-! ## Statement assembler -/

/-- The row loop of `FidelityCSVParser.parse`: `csv.reader` rows are fed to
`parse_record`; empty rows are skipped; produced records accumulate in file
order.  Any row-level exception aborts the whole parse. -/
def processRows (st : ParserState) : List (List String) →
    Except Unit (ParserState × List InvestStatementLine)
  | [] => .ok (st, [])
  | row :: rest =>
    if row = [] then processRows st rest
    else
      match parse_record st row with
      | .error e => .error e
      | .ok (st', out) =>
        match processRows st' rest with
        | .error e => .error e
        | .ok (st'', buf) =>
          .ok (st'', match out with | some ℓ => ℓ :: buf | none => buf)

/-- The id re-stamping loop (lines 305-308): walk the final list and
overwrite each record's id from the generator.  Emitted records always
carry a date; the `getD` default is never reached. -/
def restamp (g : IdCounts) : List InvestStatementLine → List InvestStatementLine
  | [] => []
  | ℓ :: rest =>
    let d := ℓ.date.getD ⟨1, 1, 1⟩
    let gi := create_id g d
    { ℓ with id := gi.2 } :: restamp gi.1 rest

/-- `re.search(r".*Account_(\w*).*\.csv", basename)` with Python's greedy
backtracking: the last occurrence of `Account_` that is still followed
(at or after the end of its token) by `.csv` wins, and the captured token
is the maximal run of word characters after it.  Returns the captured
group of the match, when one exists. -/
def findAccountToken (s : String) : Option String :=
  let l := s.data
  let n := l.length
  let ok := fun i =>
    "Account_".data.isPrefixOf (l.drop i) &&
      ((List.range (n + 1)).any (fun j =>
        decide (i + 8 ≤ j) && ".csv".data.isPrefixOf (l.drop j)))
  match ((List.range (n + 1)).filter ok).getLast? with
  | some i => some ⟨(l.drop (i + 8)).takeWhile (fun c => c.isAlphanum || c = '_')⟩
  | none => none

/-- The tail of `FidelityCSVParser.parse` after the row loop: derive the
account id, reverse the buffer, re-stamp ids with the parser's (already
used) generator, and fill the aggregate fields.  The `.error` on an empty
date list models the `min()`/`max()` call on an empty generator raising
(unreachable: every emitted record has a date). -/
def fallbackAcct (a : Option String) : Option String :=
  match a with
  | some a => if a ≠ "" then some a else none
  | none => none

/-- Lines 290-299: prefer the filename token (`if match and match[1]`),
else the observed account number (`elif self.account_number`), else unset
(with a warning logged). -/
def accountIdOf (filename : String) (a : Option String) : Option String :=
  match findAccountToken (pyBasename filename) with
  | some tok => if tok ≠ "" then some tok else fallbackAcct a
  | none => fallbackAcct a

def finalizeStatement (filename : String) (st : ParserState)
    (buffer : List InvestStatementLine) : Except Unit Statement :=
  let account_id : Option String := accountIdOf filename st.account_number
  let lines := restamp st.id_gen buffer.reverse
  if lines = [] then
    .ok { broker_id := "fidelity.com", currency := "USD", account_id := account_id,
          invest_lines := lines, start_date := none, end_date := none,
          end_balance := none }
  else
    match lines.filterMap (fun ℓ => ℓ.date) with
    | [] => .error ()
    | d :: ds =>
      .ok { broker_id := "fidelity.com", currency := "USD", account_id := account_id,
            invest_lines := lines,
            start_date := some (ds.foldl dateMin d),
            end_date := some (ds.foldl dateMax d),
            end_balance := st.end_cash_balance }

/-- `FidelityCSVParser.parse`: the whole-file entry point, over the rows
the CSV reader yields and the parser's filename. -/
def parse (filename : String) (rows : List (List String)) : Except Unit Statement :=
  match processRows initState rows with
  | .error e => .error e
  | .ok (st, buffer) => finalizeStatement filename st buffer

/-! ## Derived notions used by the claims -/

/-- The resolved value of a named column of a raw row, as `parse_record`
sees it. -/
def cellOf (st : ParserState) (line : List String) (name : String) : Option String :=
  column_value st.column_map (cleanRow line) name

/-- A record with its id blanked, for comparing record sequences up to the
id re-stamping. -/
def stripId (ℓ : InvestStatementLine) : InvestStatementLine :=
  { ℓ with id := "" }

/-- Whether the action text matches any rule of the classification chain
(including the discarding reinvestment-into-cash rule). -/
def matchesAnyRule (a : String) : Bool :=
  matchesReinvestCash a ||
  pyStartsWith a "DIVIDEND RECEIVED " ||
  pyStartsWith a "YOU BOUGHT " ||
  pyStartsWith a "YOU SOLD " ||
  pyStartsWith a "TAX WITHHELD " ||
  pyStartsWith a "INTEREST EARNED " ||
  pyStartsWith a "DIRECT DEBIT " ||
  pyStartsWith a "Electronic Funds Transfer Paid " ||
  pyStartsWith a "Check Paid" ||
  pyStartsWith a "DEBIT CARD PURCHASE" ||
  pyStartsWith a "REDEMPTION FROM CORE ACCOUNT" ||
  pyStartsWith a "TRANSFERRED FROM " ||
  pyStartsWith a "DIRECT DEPOSIT " ||
  a = "Contributions" ||
  pyStartsWith a "WIRE TRANSFER FROM " ||
  pyStartsWith a "WIRE TRANSFER TO " ||
  pyStartsWith a "Electronic Funds Transfer Received" ||
  pyStartsWith a "TRANSFER OF ASSETS ACAT RECEIVE" ||
  pyStartsWith a "TRANSFER OF ASSETS ACAT DELIVER" ||
  pyStartsWith a "TRANSFERRED TO " ||
  pyStartsWith a "JOURNALED"

/-- Modelled from the spec: "Re-run the Identifier Generator (a fresh
instance) over the now-chronological buffer, overwriting each record's
id."  The ids a *fresh* generator would assign over the final order — what
the specification asserts the assembler does. -/
def freshRestampIds (L : List InvestStatementLine) : List String :=
  (restamp (fun _ => 0) L).map (fun ℓ => ℓ.id)

/-- Extract the payload of a successful parse (used only to phrase closed
witness statements about concrete runs). -/
def getOk {α : Type} (d : α) : Except Unit α → α
  | .ok a => a
  | .error _ => d

def defaultStatement : Statement :=
  { broker_id := "", currency := "", account_id := none, invest_lines := [],
    start_date := none, end_date := none, end_balance := none }

/-! ## Concrete fixtures (taken from the repository's own test data) -/

def hdr13 : List String :=
  ["Run Date", "Action", "Symbol", "Description", "Type", "Quantity", "Price ($)",
   "Commission ($)", "Fees ($)", "Accrued Interest ($)", "Amount ($)",
   "Cash Balance ($)", "Settlement Date"]

def hdrAcct : List String :=
  ["Run Date", "Account Number", "Action", "Symbol", "Description", "Type", "Quantity",
   "Price ($)", "Commission ($)", "Fees ($)", "Accrued Interest ($)", "Amount ($)",
   "Cash Balance ($)", "Settlement Date"]

/-- A parser state whose column map was produced by the 13-column header. -/
def stMap13 : ParserState :=
  { initState with column_map := mkColumnMap hdr13 }

def rowSold11 : List String :=
  ["07/11/2025", "YOU SOLD TEST (Cash)", "TST", "Test security", "Cash", "-1", "12",
   "", "", "", "12", "100.00", "07/11/2025"]

def rowSold10 : List String :=
  ["07/10/2025", "YOU SOLD TEST (Cash)", "TST", "Test security", "Cash", "-1", "12",
   "", "", "", "12", "90.00", "07/10/2025"]

def rowBuy11 : List String :=
  ["07/11/2025", "YOU BOUGHT TEST (Cash)", "TST", "Test security", "Cash", "1", "10",
   "", "", "", "-10", "90.00", "07/11/2025"]

def rowReinvNoCash : List String :=
  ["07/10/2025", "REINVESTMENT TEST FUND", "TST", "Test security", "Cash", "1", "10",
   "", "", "", "-10", "", "07/10/2025"]

def rowDashAmount : List String :=
  ["07/10/2025", "YOU SOLD TEST (Cash)", "TST", "Test security", "Cash", "-1", "12",
   "", "", "", "--", "100.00", "07/10/2025"]

def rowReinvCash : List String :=
  ["07/11/2025", "REINVESTMENT FIDELITY GOVERNMENT MONEY MARKET (SPAXX) (Cash)",
   "SPAXX", "FIDELITY GOVERNMENT MONEY MARKET", "Cash", "0.5", "1", "", "", "",
   "-0.5", "77.00", ""]

def rowProcessing : List String :=
  ["07/10/2025", "YOU BOUGHT TEST (Cash)", "TST", "Test security", "Cash", "1", "10",
   "", "", "", "-10", "Processing", "07/10/2025"]

def rowZeroAmount : List String :=
  ["07/10/2025", "YOU BOUGHT TEST (Cash)", "TST", "Test security", "Cash", "1", "10",
   "", "", "", "0", "50.00", "07/10/2025"]

def rowUnknownNeg : List String :=
  ["07/10/2025", "MYSTERY OPERATION (Cash)", "", "No Description", "Cash", "0", "",
   "", "", "", "-50", "10.00", ""]

def rowAcct111 : List String :=
  ["07/11/2025", "111", "YOU SOLD TEST (Cash)", "TST", "Test security", "Cash", "-1",
   "12", "", "", "", "12", "100.00", "07/11/2025"]

def rowAcct222 : List String :=
  ["07/10/2025", "222", "YOU SOLD TEST (Cash)", "TST", "Test security", "Cash", "-1",
   "12", "", "", "", "12", "90.00", "07/10/2025"]

/-! ## Lemmas: the numeric lexer -/

theorem parseUnsigned_chars {rest : List Char} {q : Dec}
    (h : parseUnsigned rest = some q) :
    ∀ c ∈ rest, (c.isDigit || c = '.') = true := by
  intro c hc
  unfold parseUnsigned at h
  have hsplit := List.takeWhile_append_dropWhile (p := Char.isDigit) (l := rest)
  rw [← hsplit] at hc
  rcases List.mem_append.1 hc with h1 | h2
  · have hd := List.all_eq_true.1 (List.all_takeWhile (p := Char.isDigit) (l := rest)) c h1
    simp [hd]
  · cases hr2 : rest.dropWhile Char.isDigit with
    | nil => rw [hr2] at h2; simp at h2
    | cons d fr =>
      rw [hr2] at h2
      rw [hr2] at h
      simp only [if_neg (List.cons_ne_nil d fr)] at h
      by_cases hcond : ((d :: fr).head? = some '.' && (d :: fr).tail.all Char.isDigit
          && !(List.isEmpty (rest.takeWhile Char.isDigit) && (d :: fr).tail.isEmpty)) = true
      · have hdot : d = '.' := by
          have := hcond
          simp only [List.head?, List.tail, Bool.and_eq_true] at this
          exact Option.some_injective _ (by simpa using this.1.1)
        have hfr : fr.all Char.isDigit = true := by
          simp only [List.head?, List.tail, Bool.and_eq_true] at hcond
          exact hcond.1.2
        rcases List.mem_cons.1 h2 with rfl | hmem
        · simp [hdot]
        · have := List.all_eq_true.1 hfr c hmem
          simp [this]
      · rw [if_neg hcond] at h
        exact absurd h (by simp)

theorem parseNumber_chars {s : String} {q : Dec} (h : parseNumber s = some q) :
    ∀ c ∈ s.data, (c.isDigit || c = '.' || c = '-' || c = '+') = true := by
  intro c hc
  simp only [parseNumber] at h
  cases hl : s.data with
  | nil => rw [hl] at hc; simp at hc
  | cons a t =>
    rw [hl] at h hc
    simp only [List.head?_cons] at h
    by_cases ha1 : a = '-'
    · subst ha1
      rw [if_pos rfl] at h
      rcases List.mem_cons.1 hc with rfl | hmem
      · decide
      · rcases Option.map_eq_some'.1 h with ⟨d, hd, _⟩
        have hch := parseUnsigned_chars hd c hmem
        rcases Bool.or_eq_true_iff.1 hch with h' | h' <;> simp [h']
    · by_cases ha2 : a = '+'
      · subst ha2
        rw [if_neg (by simp), if_pos rfl] at h
        rcases List.mem_cons.1 hc with rfl | hmem
        · decide
        · have hch := parseUnsigned_chars h c hmem
          rcases Bool.or_eq_true_iff.1 hch with h' | h' <;> simp [h']
      · rw [if_neg (by simp [ha1]), if_neg (by simp [ha2])] at h
        have hch := parseUnsigned_chars h c hc
        rcases Bool.or_eq_true_iff.1 hch with h' | h' <;> simp [h']

theorem numericChar_ne {c : Char}
    (h : (c.isDigit || c = '.' || c = '-' || c = '+') = true) : c ≠ ',' ∧ c ≠ ' ' := by
  constructor <;> rintro rfl <;> revert h <;> decide

/-- On a string the lexer accepts, the decimal-separator and space cleanup
of `parse_decimal` is the identity. -/
theorem cleanNumeric_id {s : String}
    (h : ∀ c ∈ s.data, (c.isDigit || c = '.' || c = '-' || c = '+') = true) :
    removeSpaces (commaToDot s) = s := by
  unfold removeSpaces commaToDot
  cases s with
  | mk l =>
    simp only at h ⊢
    have hm : l.map (fun c => if c = ',' then '.' else c) = l := by
      have : l.map (fun c => if c = ',' then '.' else c) = l.map id :=
        List.map_congr_left (fun a ha => by
          have := (numericChar_ne (h a ha)).1
          simp [this])
      simpa using this
    rw [hm]
    have hf : l.filter (fun c => c ≠ ' ') = l :=
      List.filter_eq_self.2 (fun a ha => by
        have := (numericChar_ne (h a ha)).2
        simpa using this)
    rw [hf]

/-- A raw amount cell accepted (non-zero or not) by `float(..)` is coerced
by `parse_decimal` to exactly the same value. -/
theorem parse_decimal_of_pyFloat {s : String} {q : Dec} (h : pyFloat s = some q) :
    parse_decimal (some s) = .ok (some q) := by
  unfold pyFloat at h
  have hne1 : pyStrip s ≠ "" := by
    intro he
    rw [he] at h
    have h0 : parseNumber ("" : String) = none := by decide
    rw [h0] at h
    exact Option.noConfusion h
  have hne2 : pyStrip s ≠ "--" := by
    intro he
    rw [he] at h
    have h0 : parseNumber ("--" : String) = none := by decide
    rw [h0] at h
    exact Option.noConfusion h
  simp only [parse_decimal]
  rw [if_neg (by simp [hne1, hne2])]
  rw [cleanNumeric_id (parseNumber_chars h), h]

/-! ## Lemmas: the action classifier -/

theorem pyStartsWith_excl {s p q : String} (h : pyStartsWith s p = true)
    (hinc : (p.data.isPrefixOf q.data || q.data.isPrefixOf p.data) = false) :
    pyStartsWith s q = false := by
  unfold pyStartsWith at h ⊢
  cases hb : q.data.isPrefixOf s.data with
  | false => rfl
  | true =>
    exfalso
    have hp : p.data <+: s.data := List.isPrefixOf_iff_prefix.1 h
    have hq : q.data <+: s.data := List.isPrefixOf_iff_prefix.1 hb
    simp only [Bool.or_eq_false_iff] at hinc
    rcases List.prefix_or_prefix_of_prefix hp hq with hpq | hqp
    · have ht : p.data.isPrefixOf q.data = true := List.isPrefixOf_iff_prefix.2 hpq
      rw [hinc.1] at ht
      exact Bool.noConfusion ht
    · have ht : q.data.isPrefixOf p.data = true := List.isPrefixOf_iff_prefix.2 hqp
      rw [hinc.2] at ht
      exact Bool.noConfusion ht

set_option maxHeartbeats 1600000 in
/-- Fields the classification chain never touches. -/
theorem classify_preserves {act : String} {symbol : Option String}
    {qv pv av : Option Dec} {rec ℓ : InvestStatementLine}
    (h : (classify act symbol qv pv av rec).1 = some ℓ) :
    ℓ.date = rec.date ∧ ℓ.amount = rec.amount ∧ ℓ.date_user = rec.date_user ∧
      ℓ.memo = rec.memo ∧ ℓ.fees = rec.fees ∧ ℓ.id = rec.id := by
  unfold classify at h
  cases hc : classifyChoice act <;> simp only [hc] at h
  case discard => exact Option.noConfusion h
  case div =>
    have h2 := Option.some.inj h
    subst h2
    exact ⟨rfl, rfl, rfl, rfl, rfl, rfl⟩
  case buyBuy =>
    have h2 := Option.some.inj h
    subst h2
    exact ⟨rfl, rfl, rfl, rfl, rfl, rfl⟩
  case sellSell =>
    have h2 := Option.some.inj h
    subst h2
    exact ⟨rfl, rfl, rfl, rfl, rfl, rfl⟩
  case taxWithheld =>
    have h2 := Option.some.inj h
    subst h2
    split <;> exact ⟨rfl, rfl, rfl, rfl, rfl, rfl⟩
  case bank =>
    have h2 := Option.some.inj h
    subst h2
    exact ⟨rfl, rfl, rfl, rfl, rfl, rfl⟩
  case fallback =>
    have h2 := Option.some.inj h
    subst h2
    exact ⟨rfl, rfl, rfl, rfl, rfl, rfl⟩

/-- With no rule matching, the pattern table selects the fallback. -/
theorem classifyChoice_no_rule {act : String} (h : matchesAnyRule act = false) :
    classifyChoice act = .fallback := by
  have hs := h
  unfold matchesAnyRule at hs
  simp only [Bool.or_eq_false_iff] at hs
  obtain ⟨⟨⟨⟨⟨⟨⟨⟨⟨⟨⟨⟨⟨⟨⟨⟨⟨⟨⟨⟨h1, h2⟩, h3⟩, h4⟩, h5⟩, h6⟩, h7⟩, h8⟩, h9⟩, h10⟩, h11⟩, h12⟩, h13⟩, h14⟩, h15⟩, h16⟩, h17⟩, h18⟩, h19⟩, h20⟩, h21⟩ := hs
  have h14n : act ≠ "Contributions" := of_decide_eq_false h14
  simp only [classifyChoice, h1, h2, h3, h4, h5, h6, h7, h8, h9, h10, h11, h12, h13,
    h14n, h15, h16, h17, h18, h19, h20, h21, Bool.false_eq_true, if_false]

/-- With no rule matching, the classifier takes the lenient fallback. -/
theorem classify_no_rule {act : String} {symbol : Option String}
    {qv pv : Option Dec} {av : Option Dec} {rec : InvestStatementLine}
    (h : matchesAnyRule act = false) :
    classify act symbol qv pv av rec = (some (set_banktran rec (fallbackDetail av)), true) := by
  unfold classify
  rw [classifyChoice_no_rule h]

/-- A reinvestment action that does not match the reinvestment-into-cash
pattern matches no rule at all: the chain has no general reinvestment
rule. -/
theorem reinvest_no_rule {act : String}
    (hp : pyStartsWith act "REINVESTMENT " = true)
    (hc : matchesReinvestCash act = false) :
    matchesAnyRule act = false := by
  have e2 : pyStartsWith act "DIVIDEND RECEIVED " = false := pyStartsWith_excl hp (by decide)
  have e3 : pyStartsWith act "YOU BOUGHT " = false := pyStartsWith_excl hp (by decide)
  have e4 : pyStartsWith act "YOU SOLD " = false := pyStartsWith_excl hp (by decide)
  have e5 : pyStartsWith act "TAX WITHHELD " = false := pyStartsWith_excl hp (by decide)
  have e6 : pyStartsWith act "INTEREST EARNED " = false := pyStartsWith_excl hp (by decide)
  have e7 : pyStartsWith act "DIRECT DEBIT " = false := pyStartsWith_excl hp (by decide)
  have e8 : pyStartsWith act "Electronic Funds Transfer Paid " = false :=
    pyStartsWith_excl hp (by decide)
  have e9 : pyStartsWith act "Check Paid" = false := pyStartsWith_excl hp (by decide)
  have e10 : pyStartsWith act "DEBIT CARD PURCHASE" = false := pyStartsWith_excl hp (by decide)
  have e11 : pyStartsWith act "REDEMPTION FROM CORE ACCOUNT" = false :=
    pyStartsWith_excl hp (by decide)
  have e12 : pyStartsWith act "TRANSFERRED FROM " = false := pyStartsWith_excl hp (by decide)
  have e13 : pyStartsWith act "DIRECT DEPOSIT " = false := pyStartsWith_excl hp (by decide)
  have e14 : act ≠ "Contributions" := by
    intro he
    rw [he] at hp
    exact absurd hp (by decide)
  have e15 : pyStartsWith act "WIRE TRANSFER FROM " = false := pyStartsWith_excl hp (by decide)
  have e16 : pyStartsWith act "WIRE TRANSFER TO " = false := pyStartsWith_excl hp (by decide)
  have e17 : pyStartsWith act "Electronic Funds Transfer Received" = false :=
    pyStartsWith_excl hp (by decide)
  have e18 : pyStartsWith act "TRANSFER OF ASSETS ACAT RECEIVE" = false :=
    pyStartsWith_excl hp (by decide)
  have e19 : pyStartsWith act "TRANSFER OF ASSETS ACAT DELIVER" = false :=
    pyStartsWith_excl hp (by decide)
  have e20 : pyStartsWith act "TRANSFERRED TO " = false := pyStartsWith_excl hp (by decide)
  have e21 : pyStartsWith act "JOURNALED" = false := pyStartsWith_excl hp (by decide)
  simp [matchesAnyRule, hc, e2, e3, e4, e5, e6, e7, e8, e9, e10, e11, e12, e13, e14,
    e15, e16, e17, e18, e19, e20, e21]

/-! ## Lemmas: parse_record state bookkeeping -/

theorem okPairInj {α β : Type} {a a' : α} {b b' : β}
    (h : (Except.ok (a, b) : Except Unit (α × β)) = .ok (a', b')) : a = a' ∧ b = b' := by
  injection h with h'
  exact ⟨congrArg Prod.fst h', congrArg Prod.snd h'⟩

theorem noteAccount_idGen (st : ParserState) (a : Option String) :
    (noteAccount st a).id_gen = st.id_gen := by
  cases a with
  | none => rfl
  | some s => simp only [noteAccount]; split <;> rfl

theorem noteAccount_balance (st : ParserState) (a : Option String) :
    (noteAccount st a).end_cash_balance = st.end_cash_balance := by
  cases a with
  | none => rfl
  | some s => simp only [noteAccount]; split <;> rfl

theorem noteAccount_warnings (st : ParserState) (a : Option String) :
    (noteAccount st a).warnings = st.warnings := by
  cases a with
  | none => rfl
  | some s => simp only [noteAccount]; split <;> rfl

theorem noteBalance_idGen (st : ParserState) (v : Option Dec) :
    (noteBalance st v).id_gen = st.id_gen := by
  cases v with
  | none => rfl
  | some d => simp only [noteBalance]; split <;> rfl

theorem noteBalance_warnings (st : ParserState) (v : Option Dec) :
    (noteBalance st v).warnings = st.warnings := by
  cases v with
  | none => rfl
  | some d => simp only [noteBalance]; split <;> rfl

theorem noteBalance_account (st : ParserState) (v : Option Dec) :
    (noteBalance st v).account_number = st.account_number := by
  cases v with
  | none => rfl
  | some d => simp only [noteBalance]; split <;> rfl

theorem noteBalance_some_none (st : ParserState) (v : Dec)
    (h : st.end_cash_balance = none) :
    (noteBalance st (some v)).end_cash_balance = some v := by
  simp only [noteBalance]
  rw [if_pos h]

theorem noteWarn_idGen (st : ParserState) (b : Bool) (act : String) :
    (noteWarn st b act).id_gen = st.id_gen := by
  cases b <;> rfl

theorem noteWarn_balance (st : ParserState) (b : Bool) (act : String) :
    (noteWarn st b act).end_cash_balance = st.end_cash_balance := by
  cases b <;> rfl

theorem noteWarn_account (st : ParserState) (b : Bool) (act : String) :
    (noteWarn st b act).account_number = st.account_number := by
  cases b <;> rfl

theorem noteWarn_warnings (st : ParserState) (b : Bool) (act : String) :
    (noteWarn st b act).warnings =
      if b then st.warnings ++ ["Unknown action: " ++ act] else st.warnings := by
  cases b <;> rfl

theorem bumpId_fst_idGen (st : ParserState) (d : Date) (e : Date) :
    (bumpId st d).1.id_gen e = if e = d then st.id_gen d + 1 else st.id_gen e := rfl

theorem bumpId_balance (st : ParserState) (d : Date) :
    (bumpId st d).1.end_cash_balance = st.end_cash_balance := rfl

theorem bumpId_account (st : ParserState) (d : Date) :
    (bumpId st d).1.account_number = st.account_number := rfl

theorem bumpId_warnings (st : ParserState) (d : Date) :
    (bumpId st d).1.warnings = st.warnings := rfl

theorem bumpId_snd (st : ParserState) (d : Date) :
    (bumpId st d).2 = fmtDate d ++ "-" ++ Nat.repr (st.id_gen d + 1) := rfl

theorem mkRecord_date {id date date_user act fv av qv pv symbol} :
    (mkRecord id date date_user act fv av qv pv symbol).date = some date := rfl

theorem mkRecord_amount {id date date_user act fv av qv pv symbol} :
    (mkRecord id date date_user act fv av qv pv symbol).amount = av := rfl

theorem mkRecord_id {id date date_user act fv av qv pv symbol} :
    (mkRecord id date date_user act fv av qv pv symbol).id = id := rfl

theorem mkRecord_memo {id date date_user act fv av qv pv symbol} :
    (mkRecord id date date_user act fv av qv pv symbol).memo = some act := rfl

set_option maxHeartbeats 1600000 in
theorem parse_record_ok {st : ParserState} {line : List String} {st2 : ParserState}
    {out : Option InvestStatementLine}
    (h : parse_record st line = .ok (st2, out)) :
    (∀ e, st.id_gen e ≤ st2.id_gen e) ∧
    (∀ ℓ, out = some ℓ →
      ∃ d q, ℓ.date = some d ∧ ℓ.amount = some q ∧ q.mant ≠ 0 ∧
        ∀ e, st2.id_gen e = if e = d then st.id_gen d + 1 else st.id_gen e) := by
  simp only [parse_record] at h
  split at h
  · obtain ⟨ha, hb⟩ := okPairInj h
    subst ha; subst hb
    exact ⟨fun e => Nat.le_refl _, fun ℓ hℓ => nomatch hℓ⟩
  · split at h
    · obtain ⟨ha, hb⟩ := okPairInj h
      subst ha; subst hb
      exact ⟨fun e => Nat.le_refl _, fun ℓ hℓ => nomatch hℓ⟩
    · split at h
      · obtain ⟨ha, hb⟩ := okPairInj h
        subst ha; subst hb
        exact ⟨fun e => Nat.le_refl _, fun ℓ hℓ => nomatch hℓ⟩
      · split at h
        case _ rd act hrd hact =>
          split at h
          · obtain ⟨ha, hb⟩ := okPairInj h
            subst ha; subst hb
            exact ⟨fun e => Nat.le_refl _, fun ℓ hℓ => nomatch hℓ⟩
          · split at h
            · obtain ⟨ha, hb⟩ := okPairInj h
              subst ha; subst hb
              exact ⟨fun e => Nat.le_refl _, fun ℓ hℓ => nomatch hℓ⟩
            · split at h
              · obtain ⟨ha, hb⟩ := okPairInj h
                subst ha; subst hb
                exact ⟨fun e => Nat.le_refl _, fun ℓ hℓ => nomatch hℓ⟩
              case _ am ham =>
                split at h
                · obtain ⟨ha, hb⟩ := okPairInj h
                  subst ha; subst hb
                  exact ⟨fun e => Nat.le_refl _, fun ℓ hℓ => nomatch hℓ⟩
                · split at h
                  · exact absurd h (by simp)
                  case _ fv hfv =>
                    split at h
                    · obtain ⟨ha, hb⟩ := okPairInj h
                      subst ha; subst hb
                      exact ⟨fun e => Nat.le_refl _, fun ℓ hℓ => nomatch hℓ⟩
                    case _ hzero =>
                      split at h
                      · exact absurd h (by simp)
                      case _ fees_value hfees =>
                        split at h
                        · exact absurd h (by simp)
                        case _ amount_value hamount =>
                          split at h
                          · obtain ⟨ha, hb⟩ := okPairInj h
                            subst ha; subst hb
                            refine ⟨fun e => ?_, fun ℓ hℓ => nomatch hℓ⟩
                            rw [noteAccount_idGen]
                          · split at h
                            · exact absurd h (by simp)
                            case _ cbv hcbv =>
                              split at h
                              · exact absurd h (by simp)
                              case _ date hdate =>
                                split at h
                                · exact absurd h (by simp)
                                case _ date_user hdu =>
                                  split at h
                                  · exact absurd h (by simp)
                                  case _ qv hqv =>
                                    split at h
                                    · exact absurd h (by simp)
                                    case _ pv hpv =>
                                      obtain ⟨ha, hb⟩ := okPairInj h
                                      subst ha; subst hb
                                      constructor
                                      · intro e
                                        rw [noteWarn_idGen, bumpId_fst_idGen,
                                          noteBalance_idGen, noteAccount_idGen]
                                        split
                                        · rename_i he
                                          subst he
                                          exact Nat.le_succ _
                                        · exact Nat.le_refl _
                                      · intro ℓ hℓ
                                        obtain ⟨hdate', hamt', _, _, _, _⟩ :=
                                          classify_preserves hℓ
                                        have h2 := hamount.symm.trans
                                          (parse_decimal_of_pyFloat hfv)
                                        have h3 : amount_value = some fv :=
                                          Except.ok.inj h2
                                        have hz : fv.mant ≠ 0 := by
                                          simpa [Dec.isZero] using hzero
                                        refine ⟨date, fv, ?_, ?_, hz, fun e => ?_⟩
                                        · rw [hdate', mkRecord_date]
                                        · rw [hamt', mkRecord_amount, h3]
                                        · rw [noteWarn_idGen, bumpId_fst_idGen,
                                            noteBalance_idGen, noteAccount_idGen]
        case _ h1 =>
          obtain ⟨ha, hb⟩ := okPairInj h
          subst ha; subst hb
          exact ⟨fun e => Nat.le_refl _, fun ℓ hℓ => nomatch hℓ⟩

/-! ## Lemmas: the row loop -/

theorem processRows_ok {rows : List (List String)} :
    ∀ {st st1 : ParserState} {buf : List InvestStatementLine},
      processRows st rows = .ok (st1, buf) →
      (∀ e, st.id_gen e + buf.countP (fun x => decide (x.date = some e)) ≤ st1.id_gen e) ∧
      (∀ ℓ ∈ buf, (∃ d, ℓ.date = some d) ∧ ∃ q, ℓ.amount = some q ∧ q.mant ≠ 0) := by
  induction rows with
  | nil =>
    intro st st1 buf h
    simp only [processRows] at h
    obtain ⟨ha, hb⟩ := okPairInj h
    subst ha; subst hb
    exact ⟨fun e => by simp, fun ℓ hℓ => absurd hℓ (List.not_mem_nil ℓ)⟩
  | cons row rest ih =>
    intro st st1 buf h
    simp only [processRows] at h
    split at h
    · exact ih h
    · split at h
      · exact absurd h (by simp)
      case _ st' out hpr =>
        split at h
        · exact absurd h (by simp)
        case _ st'' buf' hrest =>
          obtain ⟨ha, hb⟩ := okPairInj h
          subst ha
          obtain ⟨hmono, hemit⟩ := parse_record_ok hpr
          obtain ⟨hmono', hall⟩ := ih hrest
          cases out with
          | none =>
            have hb2 : buf' = buf := hb
            subst hb2
            refine ⟨fun e => ?_, hall⟩
            have hm := hmono' e
            have hmo := hmono e
            omega
          | some ℓ =>
            have hb2 : ℓ :: buf' = buf := hb
            subst hb2
            constructor
            · intro e
              rw [List.countP_cons]
              obtain ⟨d, q, hd, hq, hqne, hgen⟩ := hemit ℓ rfl
              have hg := hgen e
              have hm := hmono' e
              by_cases hpe : ℓ.date = some e
              · have hde : e = d := by
                  rw [hd] at hpe
                  exact (Option.some.inj hpe).symm
                have hgen2 : st'.id_gen e = st.id_gen e + 1 := by
                  rw [hg, if_pos hde, hde]
                rw [if_pos (by simp [hpe])]
                omega
              · have hgen2 : st'.id_gen e = st.id_gen e := by
                  rw [hg, if_neg (fun he => hpe (hd.trans (congrArg some he.symm)))]
                rw [if_neg (by simp [hpe])]
                omega
            · intro ℓ' hℓ'
              rcases List.mem_cons.1 hℓ' with rfl | hmem
              · obtain ⟨d, q, hd, hq, hqne, _⟩ := hemit ℓ' rfl
                exact ⟨⟨d, hd⟩, ⟨q, hq, hqne⟩⟩
              · exact hall ℓ' hmem

/-! ## Lemmas: id re-stamping -/

theorem restamp_length (L : List InvestStatementLine) :
    ∀ g : IdCounts, (restamp g L).length = L.length := by
  induction L with
  | nil => intro g; rfl
  | cons x xs ih => intro g; simp only [restamp, List.length_cons, ih]

theorem restamp_map_stripId (L : List InvestStatementLine) :
    ∀ g : IdCounts, (restamp g L).map stripId = L.map stripId := by
  induction L with
  | nil => intro g; rfl
  | cons x xs ih =>
    intro g
    simp only [restamp, List.map_cons, ih]
    have : stripId { x with id := (create_id g (x.date.getD ⟨1, 1, 1⟩)).2 } = stripId x := by
      cases x
      rfl
    rw [this]

theorem restamp_map_date (L : List InvestStatementLine) :
    ∀ g : IdCounts, (restamp g L).map (fun ℓ => ℓ.date) = L.map (fun ℓ => ℓ.date) := by
  induction L with
  | nil => intro g; rfl
  | cons x xs ih => intro g; simp only [restamp, List.map_cons, ih]

theorem restamp_get (L : List InvestStatementLine) :
    ∀ (g : IdCounts) (i : Nat) (h : i < L.length) (h2 : i < (restamp g L).length),
      (restamp g L).get ⟨i, h2⟩ =
        { L.get ⟨i, h⟩ with
          id := fmtDate ((L.get ⟨i, h⟩).date.getD ⟨1, 1, 1⟩) ++ "-" ++
            Nat.repr (g ((L.get ⟨i, h⟩).date.getD ⟨1, 1, 1⟩) +
              (L.take (i + 1)).countP (fun x =>
                decide (x.date.getD ⟨1, 1, 1⟩ = (L.get ⟨i, h⟩).date.getD ⟨1, 1, 1⟩))) } := by
  induction L with
  | nil => intro g i h h2; exact absurd h (Nat.not_lt_zero i)
  | cons x xs ih =>
    intro g i h h2
    cases i with
    | zero =>
      show ({ x with id := (create_id g (x.date.getD ⟨1, 1, 1⟩)).2 }) = _
      simp [create_id, List.countP_cons]
    | succ i' =>
      have h' : i' < xs.length := Nat.lt_of_succ_lt_succ h
      have h2' : i' < (restamp (create_id g (x.date.getD ⟨1, 1, 1⟩)).1 xs).length := by
        rw [restamp_length]
        exact h'
      show (restamp (create_id g (x.date.getD ⟨1, 1, 1⟩)).1 xs).get ⟨i', h2'⟩ = _
      rw [ih (create_id g (x.date.getD ⟨1, 1, 1⟩)).1 i' h' h2']
      have hbase : (x :: xs).get ⟨i' + 1, h⟩ = xs.get ⟨i', h'⟩ := rfl
      rw [hbase]
      have htake : (x :: xs).take (i' + 1 + 1) = x :: xs.take (i' + 1) := rfl
      rw [htake, List.countP_cons]
      by_cases hxe : x.date.getD ⟨1, 1, 1⟩ = (xs.get ⟨i', h'⟩).date.getD ⟨1, 1, 1⟩
      · have e1 : (create_id g (x.date.getD ⟨1, 1, 1⟩)).1
            ((xs.get ⟨i', h'⟩).date.getD ⟨1, 1, 1⟩) =
            g ((xs.get ⟨i', h'⟩).date.getD ⟨1, 1, 1⟩) + 1 := by
          simp only [create_id]
          rw [if_pos hxe.symm, hxe]
        rw [e1, if_pos (by simpa using hxe)]
        rw [show ∀ a c : Nat, a + 1 + c = a + (c + 1) from fun a c => by omega]
      · have e1 : (create_id g (x.date.getD ⟨1, 1, 1⟩)).1
            ((xs.get ⟨i', h'⟩).date.getD ⟨1, 1, 1⟩) =
            g ((xs.get ⟨i', h'⟩).date.getD ⟨1, 1, 1⟩) := by
          simp only [create_id]
          rw [if_neg (fun he => hxe he.symm)]
        rw [e1, if_neg (by simpa using hxe)]
        simp only [Nat.add_zero]

/-! ## Lemmas: prefix counts and date folds -/

theorem countP_take_lt {α : Type} (p : α → Bool) (L : List α) {i j : Nat}
    (hij : i < j) (hj : j < L.length) (hp : p (L.get ⟨j, hj⟩) = true) :
    (L.take (i + 1)).countP p < (L.take (j + 1)).countP p := by
  have hsplit : L.take (j + 1) = L.take (i + 1) ++ (L.drop (i + 1)).take (j - i) := by
    rw [← List.take_add]
    congr 1
    omega
  rw [hsplit, List.countP_append]
  have hlen : j - (i + 1) < ((L.drop (i + 1)).take (j - i)).length := by
    simp only [List.length_take, List.length_drop]
    omega
  have hget : ((L.drop (i + 1)).take (j - i)).get ⟨j - (i + 1), hlen⟩ = L.get ⟨j, hj⟩ := by
    simp only [List.get_eq_getElem, List.getElem_take, List.getElem_drop]
    congr 1
    omega
  have hmem : L.get ⟨j, hj⟩ ∈ (L.drop (i + 1)).take (j - i) := by
    rw [← hget]
    exact List.get_mem _ _ _
  have hpos : 0 < ((L.drop (i + 1)).take (j - i)).countP p :=
    List.countP_pos_iff.2 ⟨_, hmem, hp⟩
  omega

theorem foldl_dateMin_le (ds : List Date) :
    ∀ d : Date, (ds.foldl dateMin d).code ≤ d.code ∧
      ∀ x ∈ ds, (ds.foldl dateMin d).code ≤ x.code := by
  induction ds with
  | nil => intro d; exact ⟨Nat.le_refl _, fun x hx => absurd hx (List.not_mem_nil x)⟩
  | cons y ys ih =>
    intro d
    have hstep : (dateMin d y).code ≤ d.code ∧ (dateMin d y).code ≤ y.code := by
      unfold dateMin
      split <;> omega
    obtain ⟨h1, h2⟩ := ih (dateMin d y)
    refine ⟨Nat.le_trans h1 hstep.1, fun x hx => ?_⟩
    rcases List.mem_cons.1 hx with rfl | hx'
    · exact Nat.le_trans h1 hstep.2
    · exact h2 x hx'

theorem foldl_dateMin_mem (ds : List Date) :
    ∀ d : Date, ds.foldl dateMin d ∈ d :: ds := by
  induction ds with
  | nil => intro d; exact List.mem_singleton.2 rfl
  | cons y ys ih =>
    intro d
    have hmem := ih (dateMin d y)
    have hdm : dateMin d y = d ∨ dateMin d y = y := by
      unfold dateMin
      split
      · exact Or.inr rfl
      · exact Or.inl rfl
    rcases List.mem_cons.1 hmem with he | hys
    · rcases hdm with h' | h'
      · exact List.mem_cons.2 (Or.inl (he.trans h'))
      · exact List.mem_cons.2 (Or.inr (List.mem_cons.2 (Or.inl (he.trans h'))))
    · exact List.mem_cons.2 (Or.inr (List.mem_cons.2 (Or.inr hys)))

theorem foldl_dateMax_ge (ds : List Date) :
    ∀ d : Date, d.code ≤ (ds.foldl dateMax d).code ∧
      ∀ x ∈ ds, x.code ≤ (ds.foldl dateMax d).code := by
  induction ds with
  | nil => intro d; exact ⟨Nat.le_refl _, fun x hx => absurd hx (List.not_mem_nil x)⟩
  | cons y ys ih =>
    intro d
    have hstep : d.code ≤ (dateMax d y).code ∧ y.code ≤ (dateMax d y).code := by
      unfold dateMax
      split <;> omega
    obtain ⟨h1, h2⟩ := ih (dateMax d y)
    refine ⟨Nat.le_trans hstep.1 h1, fun x hx => ?_⟩
    rcases List.mem_cons.1 hx with rfl | hx'
    · exact Nat.le_trans hstep.2 h1
    · exact h2 x hx'

theorem foldl_dateMax_mem (ds : List Date) :
    ∀ d : Date, ds.foldl dateMax d ∈ d :: ds := by
  induction ds with
  | nil => intro d; exact List.mem_singleton.2 rfl
  | cons y ys ih =>
    intro d
    have hmem := ih (dateMax d y)
    have hdm : dateMax d y = d ∨ dateMax d y = y := by
      unfold dateMax
      split
      · exact Or.inr rfl
      · exact Or.inl rfl
    rcases List.mem_cons.1 hmem with he | hys
    · rcases hdm with h' | h'
      · exact List.mem_cons.2 (Or.inl (he.trans h'))
      · exact List.mem_cons.2 (Or.inr (List.mem_cons.2 (Or.inl (he.trans h'))))
    · exact List.mem_cons.2 (Or.inr (List.mem_cons.2 (Or.inr hys)))

/-! ## Lemmas: the assembler -/

theorem parse_ok_elim {fn : String} {rows : List (List String)} {stout : Statement}
    (h : parse fn rows = .ok stout) :
    ∃ st1 buf, processRows initState rows = .ok (st1, buf) ∧
      finalizeStatement fn st1 buf = .ok stout := by
  simp only [parse] at h
  split at h
  · exact absurd h (by simp)
  case _ st1 buf hpr => exact ⟨st1, buf, hpr, h⟩

theorem finalize_ok_lines {fn : String} {st : ParserState}
    {buf : List InvestStatementLine} {stout : Statement}
    (h : finalizeStatement fn st buf = .ok stout) :
    stout.invest_lines = restamp st.id_gen buf.reverse ∧
      stout.account_id = accountIdOf fn st.account_number := by
  simp only [finalizeStatement] at h
  split at h
  · have h2 := Except.ok.inj h
    subst h2
    exact ⟨rfl, rfl⟩
  · split at h
    · exact absurd h (by simp)
    · have h2 := Except.ok.inj h
      subst h2
      exact ⟨rfl, rfl⟩

theorem finalize_ok_aggregates {fn : String} {st : ParserState}
    {buf : List InvestStatementLine} {stout : Statement}
    (h : finalizeStatement fn st buf = .ok stout)
    (hne : stout.invest_lines ≠ []) :
    stout.end_balance = st.end_cash_balance ∧
      ∃ d0 d1, stout.start_date = some d0 ∧ stout.end_date = some d1 ∧
        d0 ∈ stout.invest_lines.filterMap (fun ℓ => ℓ.date) ∧
        (∀ x ∈ stout.invest_lines.filterMap (fun ℓ => ℓ.date), d0.code ≤ x.code) ∧
        d1 ∈ stout.invest_lines.filterMap (fun ℓ => ℓ.date) ∧
        (∀ x ∈ stout.invest_lines.filterMap (fun ℓ => ℓ.date), x.code ≤ d1.code) := by
  simp only [finalizeStatement] at h
  split at h
  case _ hemp =>
    have h2 := Except.ok.inj h
    subst h2
    exact absurd hemp hne
  case _ hemp =>
    split at h
    · exact absurd h (by simp)
    · rename_i d ds hds
      have h2 := Except.ok.inj h
      subst h2
      refine ⟨rfl, ds.foldl dateMin d, ds.foldl dateMax d, rfl, rfl, ?_, ?_, ?_, ?_⟩
      · rw [hds]
        exact foldl_dateMin_mem ds d
      · intro x hx
        rw [hds] at hx
        rcases List.mem_cons.1 hx with he | hx'
        · rw [he]
          exact (foldl_dateMin_le ds d).1
        · exact (foldl_dateMin_le ds d).2 x hx'
      · rw [hds]
        exact foldl_dateMax_mem ds d
      · intro x hx
        rw [hds] at hx
        rcases List.mem_cons.1 hx with he | hx'
        · rw [he]
          exact (foldl_dateMax_ge ds d).1
        · exact (foldl_dateMax_ge ds d).2 x hx'

theorem countP_date_eq_of_map_eq {L1 L2 : List InvestStatementLine}
    (hmap : L1.map (fun ℓ => ℓ.date) = L2.map (fun ℓ => ℓ.date))
    (q : Option Date → Bool) :
    L1.countP (fun x => q x.date) = L2.countP (fun x => q x.date) := by
  have h1 : L1.countP (fun x => q x.date) = (L1.map (fun ℓ => ℓ.date)).countP q := by
    rw [List.countP_map]
    rfl
  have h2 : L2.countP (fun x => q x.date) = (L2.map (fun ℓ => ℓ.date)).countP q := by
    rw [List.countP_map]
    rfl
  rw [h1, h2, hmap]

/-- C6: for any two records of a parsed statement sharing a date, the one
later in the final output carries a strictly greater numeric sequence
suffix in its `YYYYMMDD-N` id. -/
theorem c6_ids_strictly_increase_per_date {fn : String} {rows : List (List String)}
    {stout : Statement} (h : parse fn rows = .ok stout) :
    ∀ i j (hi : i < stout.invest_lines.length) (hj : j < stout.invest_lines.length),
      i < j →
      (stout.invest_lines.get ⟨i, hi⟩).date = (stout.invest_lines.get ⟨j, hj⟩).date →
      ∃ d m n, (stout.invest_lines.get ⟨i, hi⟩).date = some d ∧
        (stout.invest_lines.get ⟨i, hi⟩).id = fmtDate d ++ "-" ++ Nat.repr m ∧
        (stout.invest_lines.get ⟨j, hj⟩).id = fmtDate d ++ "-" ++ Nat.repr n ∧
        m < n := by
  obtain ⟨st1, buf, hpr, hfin⟩ := parse_ok_elim h
  obtain ⟨hlines, -⟩ := finalize_ok_lines hfin
  obtain ⟨hcnt, hall⟩ := processRows_ok hpr
  rw [hlines]
  intro i j hi hj hij hdeq
  have hiL : i < buf.reverse.length := by
    rw [restamp_length] at hi
    exact hi
  have hjL : j < buf.reverse.length := by
    rw [restamp_length] at hj
    exact hj
  have hgi := restamp_get buf.reverse st1.id_gen i hiL hi
  have hgj := restamp_get buf.reverse st1.id_gen j hjL hj
  obtain ⟨⟨di, hdi⟩, -⟩ := hall (buf.reverse.get ⟨i, hiL⟩)
    (List.mem_reverse.1 (List.get_mem _ _ _))
  obtain ⟨⟨dj, hdj⟩, -⟩ := hall (buf.reverse.get ⟨j, hjL⟩)
    (List.mem_reverse.1 (List.get_mem _ _ _))
  have hdatei : ((restamp st1.id_gen buf.reverse).get ⟨i, hi⟩).date = some di := by
    rw [hgi]
    exact hdi
  have hdatej : ((restamp st1.id_gen buf.reverse).get ⟨j, hj⟩).date = some dj := by
    rw [hgj]
    exact hdj
  have hdij : di = dj := by
    rw [hdatei, hdatej] at hdeq
    exact Option.some.inj hdeq
  subst hdij
  refine ⟨di,
    st1.id_gen di + (buf.reverse.take (i + 1)).countP
      (fun x => decide (x.date.getD ⟨1, 1, 1⟩ = di)),
    st1.id_gen di + (buf.reverse.take (j + 1)).countP
      (fun x => decide (x.date.getD ⟨1, 1, 1⟩ = di)),
    hdatei, ?_, ?_, ?_⟩
  · rw [hgi, hdi]
    rfl
  · rw [hgj, hdj]
    rfl
  · have hp : decide ((buf.reverse.get ⟨j, hjL⟩).date.getD ⟨1, 1, 1⟩ =
        (buf.reverse.get ⟨i, hiL⟩).date.getD ⟨1, 1, 1⟩) = true := by
      rw [hdi, hdj]
      simp
    have hlt := countP_take_lt
      (fun x => decide (x.date.getD ⟨1, 1, 1⟩ =
        (buf.reverse.get ⟨i, hiL⟩).date.getD ⟨1, 1, 1⟩))
      buf.reverse hij hjL hp
    have hpredi : (fun x : InvestStatementLine => decide (x.date.getD ⟨1, 1, 1⟩ =
        (buf.reverse.get ⟨i, hiL⟩).date.getD ⟨1, 1, 1⟩)) =
        (fun x : InvestStatementLine => decide (x.date.getD ⟨1, 1, 1⟩ = di)) := by
      rw [hdi]
      rfl
    rw [hpredi] at hlt
    omega

/-- C1 (amended): the assembler re-stamps ids over the final chronological
order with the SAME generator already used during the row pass, not a fresh
one.  Hence the record at position `i` with date `d` gets id
`YYYYMMDD-(k_d + c_i)` where `k_d` is the generator count for `d` left over
from the row pass and `c_i` is the 1-based count of same-date records up to
and including position `i`; and since `k_d` is at least the number of
emitted records of date `d`, the first record of a date never carries
suffix 1 on a non-empty date group. -/
theorem c1_ids_restamped_with_used_generator {fn : String} {rows : List (List String)}
    {stout : Statement} {st1 : ParserState} {buf : List InvestStatementLine}
    (h : parse fn rows = .ok stout)
    (hpr : processRows initState rows = .ok (st1, buf)) :
    ∀ i (hi : i < stout.invest_lines.length),
      ∃ d, (stout.invest_lines.get ⟨i, hi⟩).date = some d ∧
        (stout.invest_lines.get ⟨i, hi⟩).id = fmtDate d ++ "-" ++
          Nat.repr (st1.id_gen d +
            (stout.invest_lines.take (i + 1)).countP (fun x => decide (x.date = some d))) ∧
        stout.invest_lines.countP (fun x => decide (x.date = some d)) ≤ st1.id_gen d := by
  obtain ⟨st1b, bufb, hprb, hfin⟩ := parse_ok_elim h
  rw [hpr] at hprb
  obtain ⟨hst, hbuf⟩ := okPairInj hprb
  subst hst; subst hbuf
  obtain ⟨hlines, -⟩ := finalize_ok_lines hfin
  obtain ⟨hcnt, hall⟩ := processRows_ok hpr
  rw [hlines]
  intro i hi
  have hiL : i < buf.reverse.length := by
    rw [restamp_length] at hi
    exact hi
  have hgi := restamp_get buf.reverse st1.id_gen i hiL hi
  obtain ⟨⟨d, hd⟩, -⟩ := hall (buf.reverse.get ⟨i, hiL⟩)
    (List.mem_reverse.1 (List.get_mem _ _ _))
  refine ⟨d, ?_, ?_, ?_⟩
  · rw [hgi]
    exact hd
  · rw [hgi, hd]
    have hmapdate : ((restamp st1.id_gen buf.reverse).take (i + 1)).map (fun ℓ => ℓ.date)
        = (buf.reverse.take (i + 1)).map (fun ℓ => ℓ.date) := by
      rw [List.map_take, List.map_take, restamp_map_date]
    have hc1 : ((restamp st1.id_gen buf.reverse).take (i + 1)).countP
          (fun x => decide (x.date = some d))
        = (buf.reverse.take (i + 1)).countP (fun x => decide (x.date = some d)) :=
      countP_date_eq_of_map_eq hmapdate (fun o => decide (o = some d))
    have hc2 : (buf.reverse.take (i + 1)).countP (fun x => decide (x.date = some d))
        = (buf.reverse.take (i + 1)).countP
            (fun x => decide (x.date.getD ⟨1, 1, 1⟩ = d)) := by
      apply List.countP_congr
      intro x hx
      have hxbuf : x ∈ buf := List.mem_reverse.1 (List.mem_of_mem_take hx)
      obtain ⟨⟨dx, hdx⟩, -⟩ := hall x hxbuf
      rw [hdx]
      simp
    rw [hc1, hc2]
    rfl
  · have hc3 : (restamp st1.id_gen buf.reverse).countP (fun x => decide (x.date = some d))
        = buf.reverse.countP (fun x => decide (x.date = some d)) :=
      countP_date_eq_of_map_eq (restamp_map_date buf.reverse st1.id_gen)
        (fun o => decide (o = some d))
    rw [hc3, List.countP_reverse]
    have hc := hcnt d
    have h0 : initState.id_gen d = 0 := rfl
    omega

/-- C1 (counterexample): on a one-record file the emitted id is
`20250710-2`, while a fresh generator over the final order — what the claim
asserts — yields `20250710-1`. -/
theorem c1_counterexample :
    (parse "History_for_Account_123.csv" [hdr13, rowSold10]).map
      (fun s => (s.invest_lines.map (fun ℓ => ℓ.id), freshRestampIds s.invest_lines)) =
      .ok (["20250710-2"], ["20250710-1"]) ∧
    (["20250710-2"] : List String) ≠ ["20250710-1"] := by
  exact ⟨by rfl, by decide⟩

/-- Witness for C1 (amended) at a concrete one-record file. -/
theorem c1_amended_witness :
    ∃ d, ((getOk defaultStatement (parse "History_for_Account_123.csv"
          [hdr13, rowSold10])).invest_lines.get ⟨0, by decide⟩).date = some d ∧
      ((getOk defaultStatement (parse "History_for_Account_123.csv"
          [hdr13, rowSold10])).invest_lines.get ⟨0, by decide⟩).id = fmtDate d ++ "-" ++
        Nat.repr ((getOk (initState, ([] : List InvestStatementLine))
            (processRows initState [hdr13, rowSold10])).1.id_gen d +
          ((getOk defaultStatement (parse "History_for_Account_123.csv"
              [hdr13, rowSold10])).invest_lines.take (0 + 1)).countP
            (fun x => decide (x.date = some d))) ∧
      (getOk defaultStatement (parse "History_for_Account_123.csv"
          [hdr13, rowSold10])).invest_lines.countP (fun x => decide (x.date = some d)) ≤
        (getOk (initState, ([] : List InvestStatementLine))
          (processRows initState [hdr13, rowSold10])).1.id_gen d :=
  c1_ids_restamped_with_used_generator
    (show parse "History_for_Account_123.csv" [hdr13, rowSold10] =
        .ok (getOk defaultStatement (parse "History_for_Account_123.csv" [hdr13, rowSold10]))
      from rfl)
    (show processRows initState [hdr13, rowSold10] =
        .ok ((getOk (initState, ([] : List InvestStatementLine))
            (processRows initState [hdr13, rowSold10])).1,
          (getOk (initState, ([] : List InvestStatementLine))
            (processRows initState [hdr13, rowSold10])).2)
      from rfl)
    0 (by decide)

/-- Witness for C6 at a concrete two-record same-date file. -/
theorem c6_witness :
    ∃ d m n,
      ((getOk defaultStatement (parse "History_for_Account_123.csv"
          [hdr13, rowSold11, rowBuy11])).invest_lines.get ⟨0, by decide⟩).date = some d ∧
      ((getOk defaultStatement (parse "History_for_Account_123.csv"
          [hdr13, rowSold11, rowBuy11])).invest_lines.get ⟨0, by decide⟩).id =
        fmtDate d ++ "-" ++ Nat.repr m ∧
      ((getOk defaultStatement (parse "History_for_Account_123.csv"
          [hdr13, rowSold11, rowBuy11])).invest_lines.get ⟨1, by decide⟩).id =
        fmtDate d ++ "-" ++ Nat.repr n ∧
      m < n :=
  c6_ids_strictly_increase_per_date
    (show parse "History_for_Account_123.csv" [hdr13, rowSold11, rowBuy11] =
        .ok (getOk defaultStatement (parse "History_for_Account_123.csv"
          [hdr13, rowSold11, rowBuy11]))
      from rfl)
    0 1 (by decide) (by decide) (by decide) (by rfl)

/-- C5: the emitted record sequence is the whole-sequence reversal of the
accepted file-order buffer (up to the id re-stamping), and on a non-empty
statement `start_date`/`end_date` are the minimum/maximum of the record
dates. -/
theorem c5_reversal_and_date_range {fn : String} {rows : List (List String)}
    {stout : Statement} {st1 : ParserState} {buf : List InvestStatementLine}
    (h : parse fn rows = .ok stout)
    (hpr : processRows initState rows = .ok (st1, buf)) :
    stout.invest_lines.map stripId = (buf.map stripId).reverse ∧
    (stout.invest_lines ≠ [] →
      ∃ d0 d1, stout.start_date = some d0 ∧ stout.end_date = some d1 ∧
        (∃ ℓ ∈ stout.invest_lines, ℓ.date = some d0) ∧
        (∃ ℓ ∈ stout.invest_lines, ℓ.date = some d1) ∧
        ∀ ℓ ∈ stout.invest_lines, ∀ dx, ℓ.date = some dx →
          d0.code ≤ dx.code ∧ dx.code ≤ d1.code) := by
  obtain ⟨st1b, bufb, hprb, hfin⟩ := parse_ok_elim h
  rw [hpr] at hprb
  obtain ⟨hst, hbuf⟩ := okPairInj hprb
  subst hst; subst hbuf
  obtain ⟨hlines, -⟩ := finalize_ok_lines hfin
  constructor
  · rw [hlines, restamp_map_stripId, List.map_reverse]
  · intro hne
    obtain ⟨-, d0, d1, hs, he, hm0, hb0, hm1, hb1⟩ := finalize_ok_aggregates hfin hne
    refine ⟨d0, d1, hs, he, ?_, ?_, ?_⟩
    · obtain ⟨ℓ, hmem, hdate⟩ := List.mem_filterMap.1 hm0
      exact ⟨ℓ, hmem, hdate⟩
    · obtain ⟨ℓ, hmem, hdate⟩ := List.mem_filterMap.1 hm1
      exact ⟨ℓ, hmem, hdate⟩
    · intro ℓ hmem dx hdx
      have hdmem : dx ∈ stout.invest_lines.filterMap (fun ℓ => ℓ.date) :=
        List.mem_filterMap.2 ⟨ℓ, hmem, hdx⟩
      exact ⟨hb0 dx hdmem, hb1 dx hdmem⟩

/-- Witness for C5 on the descending two-row file from the spec's own
example (07/11/2025 then 07/10/2025). -/
theorem c5_witness :
    (((getOk defaultStatement (parse "History_for_Account_123.csv"
        [hdr13, rowSold11, rowSold10])).start_date = some ⟨2025, 7, 10⟩) ∧
      ((getOk defaultStatement (parse "History_for_Account_123.csv"
        [hdr13, rowSold11, rowSold10])).end_date = some ⟨2025, 7, 11⟩)) ∧
    ((getOk defaultStatement (parse "History_for_Account_123.csv"
        [hdr13, rowSold11, rowSold10])).invest_lines.map stripId =
      (((getOk (initState, ([] : List InvestStatementLine))
          (processRows initState [hdr13, rowSold11, rowSold10])).2.map stripId).reverse)) ∧
    ((getOk defaultStatement (parse "History_for_Account_123.csv"
        [hdr13, rowSold11, rowSold10])).invest_lines ≠ [] →
      ∃ d0 d1, (getOk defaultStatement (parse "History_for_Account_123.csv"
          [hdr13, rowSold11, rowSold10])).start_date = some d0 ∧
        (getOk defaultStatement (parse "History_for_Account_123.csv"
          [hdr13, rowSold11, rowSold10])).end_date = some d1 ∧
        (∃ ℓ ∈ (getOk defaultStatement (parse "History_for_Account_123.csv"
          [hdr13, rowSold11, rowSold10])).invest_lines, ℓ.date = some d0) ∧
        (∃ ℓ ∈ (getOk defaultStatement (parse "History_for_Account_123.csv"
          [hdr13, rowSold11, rowSold10])).invest_lines, ℓ.date = some d1) ∧
        ∀ ℓ ∈ (getOk defaultStatement (parse "History_for_Account_123.csv"
          [hdr13, rowSold11, rowSold10])).invest_lines, ∀ dx, ℓ.date = some dx →
          d0.code ≤ dx.code ∧ dx.code ≤ d1.code) :=
  ⟨⟨by rfl, by rfl⟩,
  c5_reversal_and_date_range
    (show parse "History_for_Account_123.csv" [hdr13, rowSold11, rowSold10] =
        .ok (getOk defaultStatement (parse "History_for_Account_123.csv"
          [hdr13, rowSold11, rowSold10]))
      from rfl)
    (show processRows initState [hdr13, rowSold11, rowSold10] =
        .ok ((getOk (initState, ([] : List InvestStatementLine))
            (processRows initState [hdr13, rowSold11, rowSold10])).1,
          (getOk (initState, ([] : List InvestStatementLine))
            (processRows initState [hdr13, rowSold11, rowSold10])).2)
      from rfl)⟩

set_option maxHeartbeats 1600000 in
/-- C3: a row whose coerced amount is absent or zero produces no record —
the filter fires before classification, so neither the classifier's
warning list nor the id generator is touched — and consequently every
record of a returned statement carries a non-zero decimal amount. -/
theorem c3_zero_amount_filtered :
    (∀ (st : ParserState) (row : List String) (st2 : ParserState)
        (out : Option InvestStatementLine),
      parse_record st row = .ok (st2, out) →
      (parse_decimal (cellOf st row "Amount ($)") = .ok none ∨
        ∃ q, parse_decimal (cellOf st row "Amount ($)") = .ok (some q) ∧ q.mant = 0) →
      out = none ∧ st2.warnings = st.warnings ∧ st2.id_gen = st.id_gen) ∧
    (∀ (fn : String) (rows : List (List String)) (stout : Statement),
      parse fn rows = .ok stout →
      ∀ ℓ ∈ stout.invest_lines, ∃ q, ℓ.amount = some q ∧ q.mant ≠ 0) := by
  constructor
  · intro st row st2 out h hamt
    simp only [cellOf] at hamt
    simp only [parse_record] at h
    split at h
    · obtain ⟨ha, hb⟩ := okPairInj h
      subst ha; subst hb
      exact ⟨rfl, rfl, rfl⟩
    · split at h
      · obtain ⟨ha, hb⟩ := okPairInj h
        subst ha; subst hb
        exact ⟨rfl, rfl, rfl⟩
      · split at h
        · obtain ⟨ha, hb⟩ := okPairInj h
          subst ha; subst hb
          exact ⟨rfl, rfl, rfl⟩
        · split at h
          case _ rd act hrd hact =>
            split at h
            · obtain ⟨ha, hb⟩ := okPairInj h
              subst ha; subst hb
              exact ⟨rfl, rfl, rfl⟩
            · split at h
              · obtain ⟨ha, hb⟩ := okPairInj h
                subst ha; subst hb
                exact ⟨rfl, rfl, rfl⟩
              · split at h
                · obtain ⟨ha, hb⟩ := okPairInj h
                  subst ha; subst hb
                  exact ⟨rfl, rfl, rfl⟩
                case _ am ham =>
                  split at h
                  · obtain ⟨ha, hb⟩ := okPairInj h
                    subst ha; subst hb
                    exact ⟨rfl, rfl, rfl⟩
                  · split at h
                    · exact absurd h (by simp)
                    case _ fv hfv =>
                      split at h
                      · obtain ⟨ha, hb⟩ := okPairInj h
                        subst ha; subst hb
                        exact ⟨rfl, rfl, rfl⟩
                      case _ hzero =>
                        -- the amount cell parsed to a non-zero float: the
                        -- absent-or-zero hypothesis is contradictory here
                        exfalso
                        rw [ham] at hamt
                        have hpd := parse_decimal_of_pyFloat hfv
                        rcases hamt with hnone | ⟨q, hq, hq0⟩
                        · rw [hpd] at hnone
                          have := Except.ok.inj hnone
                          exact Option.noConfusion this
                        · rw [hpd] at hq
                          have hqq := Option.some.inj (Except.ok.inj hq)
                          have : fv.isZero = true := by
                            simp [Dec.isZero, hqq, hq0]
                          exact hzero this
          case _ h1 =>
            obtain ⟨ha, hb⟩ := okPairInj h
            subst ha; subst hb
            exact ⟨rfl, rfl, rfl⟩
  · intro fn rows stout h ℓ hmem
    obtain ⟨st1, buf, hpr, hfin⟩ := parse_ok_elim h
    obtain ⟨hlines, -⟩ := finalize_ok_lines hfin
    obtain ⟨-, hall⟩ := processRows_ok hpr
    rw [hlines] at hmem
    obtain ⟨⟨i, hi⟩, hget⟩ := List.mem_iff_get.1 hmem
    have hiL : i < buf.reverse.length := by
      have := hi
      rw [restamp_length] at this
      exact this
    have hg := restamp_get buf.reverse st1.id_gen i hiL hi
    obtain ⟨-, q, hq, hqne⟩ := hall (buf.reverse.get ⟨i, hiL⟩)
      (List.mem_reverse.1 (List.get_mem _ _ _))
    refine ⟨q, ?_, hqne⟩
    rw [← hget, hg]
    exact hq

/-- Witness for C3 at a concrete zero-amount row. -/
theorem c3_witness :
    (getOk (initState, (none : Option InvestStatementLine))
        (parse_record stMap13 rowZeroAmount)).2 = none ∧
    (getOk (initState, (none : Option InvestStatementLine))
        (parse_record stMap13 rowZeroAmount)).1.warnings = stMap13.warnings ∧
    (getOk (initState, (none : Option InvestStatementLine))
        (parse_record stMap13 rowZeroAmount)).1.id_gen = stMap13.id_gen :=
  c3_zero_amount_filtered.1 stMap13 rowZeroAmount
    (getOk (initState, (none : Option InvestStatementLine))
      (parse_record stMap13 rowZeroAmount)).1
    (getOk (initState, (none : Option InvestStatementLine))
      (parse_record stMap13 rowZeroAmount)).2
    (show parse_record stMap13 rowZeroAmount =
        .ok ((getOk (initState, (none : Option InvestStatementLine))
            (parse_record stMap13 rowZeroAmount)).1,
          (getOk (initState, (none : Option InvestStatementLine))
            (parse_record stMap13 rowZeroAmount)).2)
      from rfl)
    (Or.inr ⟨⟨0, 0⟩, by rfl, rfl⟩)

set_option maxHeartbeats 1600000 in
/-- C7: a row whose cash-balance cell reads "Processing" (any letter case)
produces no record and leaves the captured ending cash balance untouched,
so its balance value can never become the statement's end_balance. -/
theorem c7_processing_row_skipped {st : ParserState} {row : List String}
    {st2 : ParserState} {out : Option InvestStatementLine}
    (h : parse_record st row = .ok (st2, out))
    (hproc : isProcessing (cellOf st row "Cash Balance ($)") = true) :
    out = none ∧ st2.end_cash_balance = st.end_cash_balance := by
  simp only [cellOf] at hproc
  simp only [parse_record] at h
  split at h
  · obtain ⟨ha, hb⟩ := okPairInj h
    subst ha; subst hb
    exact ⟨rfl, rfl⟩
  · split at h
    · obtain ⟨ha, hb⟩ := okPairInj h
      subst ha; subst hb
      exact ⟨rfl, rfl⟩
    · split at h
      · obtain ⟨ha, hb⟩ := okPairInj h
        subst ha; subst hb
        exact ⟨rfl, rfl⟩
      · split at h
        case _ rd act hrd hact =>
          split at h
          · obtain ⟨ha, hb⟩ := okPairInj h
            subst ha; subst hb
            exact ⟨rfl, rfl⟩
          · split at h
            · obtain ⟨ha, hb⟩ := okPairInj h
              subst ha; subst hb
              exact ⟨rfl, rfl⟩
            · split at h
              · obtain ⟨ha, hb⟩ := okPairInj h
                subst ha; subst hb
                exact ⟨rfl, rfl⟩
              case _ am ham =>
                split at h
                · obtain ⟨ha, hb⟩ := okPairInj h
                  subst ha; subst hb
                  exact ⟨rfl, rfl⟩
                · split at h
                  · exact absurd h (by simp)
                  case _ fv hfv =>
                    split at h
                    · obtain ⟨ha, hb⟩ := okPairInj h
                      subst ha; subst hb
                      exact ⟨rfl, rfl⟩
                    case _ hzero =>
                      split at h
                      · exact absurd h (by simp)
                      case _ fees_value hfees =>
                        split at h
                        · exact absurd h (by simp)
                        case _ amount_value hamount =>
                          -- the processing test is resolved by `hproc`
                          obtain ⟨ha, hb⟩ := okPairInj h
                          subst ha; subst hb
                          refine ⟨rfl, ?_⟩
                          rw [noteAccount_balance]
        case _ h1 =>
          obtain ⟨ha, hb⟩ := okPairInj h
          subst ha; subst hb
          exact ⟨rfl, rfl⟩

/-- Witness for C7 at the repository's own "Processing" test row. -/
theorem c7_witness :
    (getOk (initState, (none : Option InvestStatementLine))
        (parse_record stMap13 rowProcessing)).2 = none ∧
    (getOk (initState, (none : Option InvestStatementLine))
        (parse_record stMap13 rowProcessing)).1.end_cash_balance =
      stMap13.end_cash_balance :=
  c7_processing_row_skipped
    (show parse_record stMap13 rowProcessing =
        .ok ((getOk (initState, (none : Option InvestStatementLine))
            (parse_record stMap13 rowProcessing)).1,
          (getOk (initState, (none : Option InvestStatementLine))
            (parse_record stMap13 rowProcessing)).2)
      from rfl)
    (by decide)

set_option maxHeartbeats 1600000 in
/-- A row that emits a record whose action text matches no classification
rule goes through the lenient fallback: bank transaction, direction from
the amount's sign, and the unknown-action warning is logged. -/
theorem parse_record_fallback_emit {st : ParserState} {row : List String}
    {st2 : ParserState} {ℓ : InvestStatementLine} {act : String}
    (h : parse_record st row = .ok (st2, some ℓ))
    (hact : cellOf st row "Action" = some act)
    (hnomatch : matchesAnyRule act = false) :
    ℓ.trntype = some "INVBANKTRAN" ∧
    (∃ q, ℓ.amount = some q ∧
      ℓ.trntype_detailed = some (if 0 ≤ q.mant then "CREDIT" else "DEBIT")) ∧
    st2.warnings = st.warnings ++ ["Unknown action: " ++ act] := by
  simp only [cellOf] at hact
  simp only [parse_record] at h
  split at h
  · obtain ⟨ha, hb⟩ := okPairInj h
    exact Option.noConfusion hb
  · split at h
    · obtain ⟨ha, hb⟩ := okPairInj h
      exact Option.noConfusion hb
    · split at h
      · obtain ⟨ha, hb⟩ := okPairInj h
        exact Option.noConfusion hb
      · split at h
        case _ rd act2 hrd hact2 =>
          split at h
          · obtain ⟨ha, hb⟩ := okPairInj h
            exact Option.noConfusion hb
          · split at h
            · obtain ⟨ha, hb⟩ := okPairInj h
              exact Option.noConfusion hb
            · split at h
              · obtain ⟨ha, hb⟩ := okPairInj h
                exact Option.noConfusion hb
              case _ am ham =>
                split at h
                · obtain ⟨ha, hb⟩ := okPairInj h
                  exact Option.noConfusion hb
                · split at h
                  · exact absurd h (by simp)
                  case _ fv hfv =>
                    split at h
                    · obtain ⟨ha, hb⟩ := okPairInj h
                      exact Option.noConfusion hb
                    case _ hzero =>
                      split at h
                      · exact absurd h (by simp)
                      case _ fees_value hfees =>
                        split at h
                        · exact absurd h (by simp)
                        case _ amount_value hamount =>
                          split at h
                          · obtain ⟨ha, hb⟩ := okPairInj h
                            exact Option.noConfusion hb
                          · split at h
                            · exact absurd h (by simp)
                            case _ cbv hcbv =>
                              split at h
                              · exact absurd h (by simp)
                              case _ date hdate =>
                                split at h
                                · exact absurd h (by simp)
                                case _ date_user hdu =>
                                  split at h
                                  · exact absurd h (by simp)
                                  case _ qv hqv =>
                                    split at h
                                    · exact absurd h (by simp)
                                    case _ pv hpv =>
                                      have hacteq : act2 = act :=
                                        Option.some.inj (hact2.symm.trans hact)
                                      subst hacteq
                                      rw [classify_no_rule hnomatch] at h
                                      obtain ⟨ha, hb⟩ := okPairInj h
                                      have hb2 : some (set_banktran
                                          (mkRecord (bumpId (noteBalance (noteAccount st
                                            (column_value st.column_map (cleanRow row)
                                              "Account Number")) cbv) date).2 date date_user
                                            act2 fees_value amount_value qv pv
                                            (column_value st.column_map (cleanRow row)
                                              "Symbol"))
                                          (fallbackDetail amount_value)) = some ℓ := hb
                                      have hℓ := Option.some.inj hb2
                                      have hamv : amount_value = some fv :=
                                        Except.ok.inj
                                          (hamount.symm.trans (parse_decimal_of_pyFloat hfv))
                                      refine ⟨?_, ⟨fv, ?_, ?_⟩, ?_⟩
                                      · rw [← hℓ]
                                        rfl
                                      · rw [← hℓ, hamv]
                                        rfl
                                      · rw [← hℓ, hamv]
                                        by_cases h0 : 0 ≤ fv.mant
                                        · simp [set_banktran, fallbackDetail, Dec.nonneg, h0]
                                        · simp [set_banktran, fallbackDetail, Dec.nonneg, h0]
                                      · rw [← ha]
                                        have hw := noteWarn_warnings (bumpId (noteBalance
                                          (noteAccount st (column_value st.column_map
                                            (cleanRow row) "Account Number")) cbv) date).1
                                          true act2
                                        rw [hw]
                                        rw [bumpId_warnings, noteBalance_warnings,
                                          noteAccount_warnings]
                                        rfl
        case _ h1 =>
          obtain ⟨ha, hb⟩ := okPairInj h
          exact Option.noConfusion hb

/-- C8: a row that passes filtering but whose action matches no
classification rule is classified by the lenient fallback as a bank
transaction, CREDIT when the amount is ≥ 0 and DEBIT when it is negative,
and the unknown-action warning is logged. -/
theorem c8_unmatched_action_lenient_fallback {st : ParserState} {row : List String}
    {st2 : ParserState} {ℓ : InvestStatementLine} {act : String}
    (h : parse_record st row = .ok (st2, some ℓ))
    (hact : cellOf st row "Action" = some act)
    (hnomatch : matchesAnyRule act = false) :
    ℓ.trntype = some "INVBANKTRAN" ∧
    (∃ q, ℓ.amount = some q ∧
      ℓ.trntype_detailed = some (if 0 ≤ q.mant then "CREDIT" else "DEBIT")) ∧
    st2.warnings = st.warnings ++ ["Unknown action: " ++ act] :=
  parse_record_fallback_emit h hact hnomatch

/-- Witness for C8: an unknown action with amount -50 yields a
BANKTRAN/DEBIT record plus a warning. -/
theorem c8_witness :
    (((getOk (initState, (none : Option InvestStatementLine))
          (parse_record stMap13 rowUnknownNeg)).2.getD {}).trntype_detailed =
        some "DEBIT") ∧
    (((getOk (initState, (none : Option InvestStatementLine))
          (parse_record stMap13 rowUnknownNeg)).2.getD {}).trntype =
        some "INVBANKTRAN" ∧
      (∃ q, ((getOk (initState, (none : Option InvestStatementLine))
          (parse_record stMap13 rowUnknownNeg)).2.getD {}).amount = some q ∧
        ((getOk (initState, (none : Option InvestStatementLine))
          (parse_record stMap13 rowUnknownNeg)).2.getD {}).trntype_detailed =
          some (if 0 ≤ q.mant then "CREDIT" else "DEBIT")) ∧
      (getOk (initState, (none : Option InvestStatementLine))
          (parse_record stMap13 rowUnknownNeg)).1.warnings =
        stMap13.warnings ++ ["Unknown action: " ++ "MYSTERY OPERATION (Cash)"]) :=
  ⟨by rfl,
   c8_unmatched_action_lenient_fallback
    (show parse_record stMap13 rowUnknownNeg =
        .ok ((getOk (initState, (none : Option InvestStatementLine))
            (parse_record stMap13 rowUnknownNeg)).1,
          some ((getOk (initState, (none : Option InvestStatementLine))
            (parse_record stMap13 rowUnknownNeg)).2.getD {}))
      from rfl)
    (by rfl)
    (by decide)⟩

/-- C2 (amended): the classifier has NO general reinvestment rule: a row
whose action starts with "REINVESTMENT " but does not match the
reinvestment-into-cash discard pattern matches no rule at all and falls to
the lenient fallback (BANKTRAN, CREDIT/DEBIT by amount sign, with a
warning) — it is not classified BUY/BUY. -/
theorem c2_reinvest_falls_to_fallback {st : ParserState} {row : List String}
    {st2 : ParserState} {ℓ : InvestStatementLine} {act : String}
    (h : parse_record st row = .ok (st2, some ℓ))
    (hact : cellOf st row "Action" = some act)
    (hp : pyStartsWith act "REINVESTMENT " = true)
    (hnc : matchesReinvestCash act = false) :
    ℓ.trntype = some "INVBANKTRAN" ∧
    (∃ q, ℓ.amount = some q ∧
      ℓ.trntype_detailed = some (if 0 ≤ q.mant then "CREDIT" else "DEBIT")) ∧
    st2.warnings = st.warnings ++ ["Unknown action: " ++ act] :=
  parse_record_fallback_emit h hact (reinvest_no_rule hp hnc)

/-- C2 (counterexample): a non-cash reinvestment row is emitted as
INVBANKTRAN/DEBIT, not as the BUY/BUY the claim asserts. -/
theorem c2_counterexample :
    (parse "History_for_Account_123.csv" [hdr13, rowReinvNoCash]).map
      (fun s => s.invest_lines.map (fun ℓ => (ℓ.trntype, ℓ.trntype_detailed))) =
      .ok [(some "INVBANKTRAN", some "DEBIT")] ∧
    pyStartsWith "REINVESTMENT TEST FUND" "REINVESTMENT " = true ∧
    matchesReinvestCash "REINVESTMENT TEST FUND" = false ∧
    ((some "INVBANKTRAN", some "DEBIT") : Option String × Option String) ≠
      (some "BUYSTOCK", some "BUY") := by
  exact ⟨by rfl, by decide, by decide, by decide⟩

/-- Witness for C2 (amended) at the concrete non-cash reinvestment row. -/
theorem c2_amended_witness :
    ((getOk (initState, (none : Option InvestStatementLine))
        (parse_record stMap13 rowReinvNoCash)).2.getD {}).trntype =
      some "INVBANKTRAN" ∧
    (∃ q, ((getOk (initState, (none : Option InvestStatementLine))
        (parse_record stMap13 rowReinvNoCash)).2.getD {}).amount = some q ∧
      ((getOk (initState, (none : Option InvestStatementLine))
        (parse_record stMap13 rowReinvNoCash)).2.getD {}).trntype_detailed =
        some (if 0 ≤ q.mant then "CREDIT" else "DEBIT")) ∧
    (getOk (initState, (none : Option InvestStatementLine))
        (parse_record stMap13 rowReinvNoCash)).1.warnings =
      stMap13.warnings ++ ["Unknown action: " ++ "REINVESTMENT TEST FUND"] :=
  c2_reinvest_falls_to_fallback
    (show parse_record stMap13 rowReinvNoCash =
        .ok ((getOk (initState, (none : Option InvestStatementLine))
            (parse_record stMap13 rowReinvNoCash)).1,
          some ((getOk (initState, (none : Option InvestStatementLine))
            (parse_record stMap13 rowReinvNoCash)).2.getD {}))
      from rfl)
    (by rfl)
    (by decide)
    (by decide)

/-- A reinvestment-into-cash action is discarded by the first rule of the
chain before any record is produced, and no warning is logged. -/
theorem classify_discard {act : String} {symbol : Option String}
    {qv pv av : Option Dec} {rec : InvestStatementLine}
    (h : matchesReinvestCash act = true) :
    classify act symbol qv pv av rec = (none, false) := by
  unfold classify classifyChoice
  rw [h]
  rfl

set_option maxHeartbeats 1600000 in
/-- C10: a row that passes the shape and amount filters and is then
discarded by the reinvestment-into-cash rule emits no record, yet when its
cash-balance cell parses to a decimal and no earlier balance was captured,
that value still becomes the captured ending cash balance (and hence the
statement's end_balance). -/
theorem c10_discarded_reinvest_row_sets_balance {st : ParserState}
    {row : List String} {st2 : ParserState} {out : Option InvestStatementLine}
    {rd act am : String} {fv v : Dec}
    (h : parse_record st row = .ok (st2, out))
    (hb1 : cleanRow row ≠ [])
    (hb2 : cleanRow row ≠ [""])
    (hhdr : (cleanRow row).head? ≠ some "Run Date")
    (hmap : st.column_map ≠ [])
    (hrd : cellOf st row "Run Date" = some rd)
    (hdigit : ∃ c, rd.data.head? = some c ∧ c.isDigit = true)
    (hact : cellOf st row "Action" = some act)
    (hreinv : matchesReinvestCash act = true)
    (ham : cellOf st row "Amount ($)" = some am)
    (hfv : pyFloat am = some fv)
    (hnz : fv.isZero = false)
    (hnp : isProcessing (cellOf st row "Cash Balance ($)") = false)
    (hcb : parse_decimal (cellOf st row "Cash Balance ($)") = .ok (some v))
    (hbal : st.end_cash_balance = none) :
    out = none ∧ st2.end_cash_balance = some v := by
  simp only [cellOf] at hrd hact ham hnp hcb
  simp only [parse_record] at h
  split at h
  case _ hc =>
    have hor : cleanRow row = [] ∨ cleanRow row = [""] := by
      simpa using hc
    rcases hor with hor | hor
    · exact absurd hor hb1
    · exact absurd hor hb2
  case _ =>
    split at h
    case _ rd' act' hrd' hact' =>
      have hrdeq : rd' = rd := Option.some.inj (hrd'.symm.trans hrd)
      have hacteq : act' = act := Option.some.inj (hact'.symm.trans hact)
      subst hrdeq; subst hacteq
      obtain ⟨c, hcq, hcd⟩ := hdigit
      split at h
      case _ hq =>
        rw [hq] at hcq
        have hce : c = '\x22' := (Option.some.inj hcq).symm
        rw [hce] at hcd
        exact absurd hcd (by decide)
      case _ =>
        split at h
        case _ hnd =>
          rw [hcq] at hnd
          simp only [hcd] at hnd
          exact absurd hnd (by decide)
        case _ =>
          split at h
          case _ hno =>
            rw [hno] at ham
            exact Option.noConfusion ham
          case _ am' ham' =>
            have hameq : am' = am := Option.some.inj (ham'.symm.trans ham)
            subst hameq
            split at h
            case _ hq =>
              rw [hq] at hfv
              rw [show pyFloat "" = none from rfl] at hfv
              exact Option.noConfusion hfv
            case _ =>
              split at h
              · exact absurd h (by simp)
              case _ fv' hfv' =>
                have hfveq : fv' = fv := Option.some.inj (hfv'.symm.trans hfv)
                subst hfveq
                split at h
                case _ hz =>
                  rw [hnz] at hz
                  exact absurd hz (by decide)
                case _ =>
                  split at h
                  · exact absurd h (by simp)
                  case _ fees_value hfees =>
                    split at h
                    · exact absurd h (by simp)
                    case _ amount_value hamount =>
                      split at h
                      case _ hp =>
                        rw [hnp] at hp
                        exact absurd hp (by decide)
                      case _ =>
                       split at h
                       · exact absurd h (by simp)
                       case _ cbv hcbv =>
                         have hcbeq : cbv = some v :=
                           Except.ok.inj (hcbv.symm.trans hcb)
                         split at h
                         · exact absurd h (by simp)
                         case _ date hdate =>
                           split at h
                           · exact absurd h (by simp)
                           case _ date_user hdu =>
                             split at h
                             · exact absurd h (by simp)
                             case _ qv hqv =>
                               split at h
                               · exact absurd h (by simp)
                               case _ pv hpv =>
                                 rw [classify_discard hreinv] at h
                                 obtain ⟨ha, hb⟩ := okPairInj h
                                 refine ⟨hb.symm, ?_⟩
                                 rw [← ha]
                                 rw [noteWarn_balance, bumpId_balance, hcbeq]
                                 apply noteBalance_some_none
                                 rw [noteAccount_balance]
                                 exact hbal
    case _ h1 =>
      exact (h1 rd act hrd hact).elim

/-- Witness for C10 at the repository's reinvestment-into-cash sample row:
the row is discarded yet its 77.00 cash balance is captured. -/
theorem c10_witness :
    (getOk (initState, (none : Option InvestStatementLine))
        (parse_record stMap13 rowReinvCash)).2 = none ∧
    (getOk (initState, (none : Option InvestStatementLine))
        (parse_record stMap13 rowReinvCash)).1.end_cash_balance =
      some ((getOk (none : Option Dec)
        (parse_decimal (some "77.00"))).getD ⟨0, 0⟩) :=
  @c10_discarded_reinvest_row_sets_balance stMap13 rowReinvCash
    (getOk (initState, (none : Option InvestStatementLine))
      (parse_record stMap13 rowReinvCash)).1
    (getOk (initState, (none : Option InvestStatementLine))
      (parse_record stMap13 rowReinvCash)).2
    "07/11/2025" "REINVESTMENT FIDELITY GOVERNMENT MONEY MARKET (SPAXX) (Cash)"
    "-0.5"
    ((pyFloat "-0.5").getD ⟨0, 0⟩)
    ((getOk (none : Option Dec) (parse_decimal (some "77.00"))).getD ⟨0, 0⟩)
    (show parse_record stMap13 rowReinvCash =
        .ok ((getOk (initState, (none : Option InvestStatementLine))
            (parse_record stMap13 rowReinvCash)).1,
          (getOk (initState, (none : Option InvestStatementLine))
            (parse_record stMap13 rowReinvCash)).2)
      from rfl)
    (by decide)
    (by decide)
    (by decide)
    (by decide)
    (by rfl)
    ⟨'0', rfl, by decide⟩
    (by rfl)
    (by decide)
    (by rfl)
    (by rfl)
    (by decide)
    (by decide)
    (by rfl)
    rfl

/-- `noteAccount` either leaves the held account number unchanged or
overwrites it with the row's nonempty account-number cell. -/
theorem noteAccount_cases (st : ParserState) (a : Option String) :
    (noteAccount st a).account_number = st.account_number ∨
    ∃ s, a = some s ∧ s ≠ "" ∧ (noteAccount st a).account_number = some s := by
  cases a with
  | none => exact Or.inl rfl
  | some s =>
    simp only [noteAccount]
    split
    case _ hs => exact Or.inr ⟨s, rfl, hs, rfl⟩
    case _ hs => exact Or.inl rfl

set_option maxHeartbeats 1600000 in
/-- Across one `parse_record` call the held account number is either left
unchanged or overwritten with the row's nonempty account-number cell: the
parser keeps the most recently observed account number, never a set of
all observed ones. -/
theorem parse_record_account {st : ParserState} {row : List String}
    {st2 : ParserState} {out : Option InvestStatementLine}
    (h : parse_record st row = .ok (st2, out)) :
    st2.account_number = st.account_number ∨
    ∃ a, cellOf st row "Account Number" = some a ∧ a ≠ "" ∧
      st2.account_number = some a := by
  simp only [cellOf]
  simp only [parse_record] at h
  split at h
  · obtain ⟨ha, hb⟩ := okPairInj h
    subst ha; subst hb
    exact Or.inl rfl
  · split at h
    · obtain ⟨ha, hb⟩ := okPairInj h
      subst ha; subst hb
      exact Or.inl rfl
    · split at h
      · obtain ⟨ha, hb⟩ := okPairInj h
        subst ha; subst hb
        exact Or.inl rfl
      · split at h
        case _ rd act hrd hact =>
          split at h
          · obtain ⟨ha, hb⟩ := okPairInj h
            subst ha; subst hb
            exact Or.inl rfl
          · split at h
            · obtain ⟨ha, hb⟩ := okPairInj h
              subst ha; subst hb
              exact Or.inl rfl
            · split at h
              · obtain ⟨ha, hb⟩ := okPairInj h
                subst ha; subst hb
                exact Or.inl rfl
              case _ am ham =>
                split at h
                · obtain ⟨ha, hb⟩ := okPairInj h
                  subst ha; subst hb
                  exact Or.inl rfl
                · split at h
                  · exact absurd h (by simp)
                  case _ fv hfv =>
                    split at h
                    · obtain ⟨ha, hb⟩ := okPairInj h
                      subst ha; subst hb
                      exact Or.inl rfl
                    case _ hzero =>
                      split at h
                      · exact absurd h (by simp)
                      case _ fees_value hfees =>
                        split at h
                        · exact absurd h (by simp)
                        case _ amount_value hamount =>
                          split at h
                          case _ hp =>
                            obtain ⟨ha, hb⟩ := okPairInj h
                            rcases noteAccount_cases st (column_value st.column_map
                                (cleanRow row) "Account Number") with hc | ⟨s, hs1, hs2, hs3⟩
                            · exact Or.inl (by rw [← ha]; exact hc)
                            · exact Or.inr ⟨s, hs1, hs2, by rw [← ha]; exact hs3⟩
                          case _ =>
                            split at h
                            · exact absurd h (by simp)
                            case _ cbv hcbv =>
                              split at h
                              · exact absurd h (by simp)
                              case _ date hdate =>
                                split at h
                                · exact absurd h (by simp)
                                case _ date_user hdu =>
                                  split at h
                                  · exact absurd h (by simp)
                                  case _ qv hqv =>
                                    split at h
                                    · exact absurd h (by simp)
                                    case _ pv hpv =>
                                      obtain ⟨ha, hb⟩ := okPairInj h
                                      have hacc : st2.account_number =
                                          (noteAccount st (column_value st.column_map
                                            (cleanRow row) "Account Number")).account_number := by
                                        rw [← ha, noteWarn_account, bumpId_account,
                                          noteBalance_account]
                                      rcases noteAccount_cases st (column_value st.column_map
                                          (cleanRow row) "Account Number") with
                                        hc | ⟨s, hs1, hs2, hs3⟩
                                      · exact Or.inl (hacc.trans hc)
                                      · exact Or.inr ⟨s, hs1, hs2, hacc.trans hs3⟩
        case _ h1 =>
          obtain ⟨ha, hb⟩ := okPairInj h
          subst ha; subst hb
          exact Or.inl rfl

/-- C9 (amended): the statement's account id prefers the filename token
and otherwise falls back to the parser's held account number, which is
the most recently observed nonempty account-number cell (not a check that
exactly one distinct number was observed). -/
theorem c9_account_id_source :
    (∀ (fn : String) (rows : List (List String)) (stout : Statement),
      parse fn rows = .ok stout →
      ∃ st1 buf, processRows initState rows = .ok (st1, buf) ∧
        stout.account_id = accountIdOf fn st1.account_number) ∧
    (∀ (st : ParserState) (row : List String) (st2 : ParserState)
        (out : Option InvestStatementLine),
      parse_record st row = .ok (st2, out) →
      st2.account_number = st.account_number ∨
      ∃ a, cellOf st row "Account Number" = some a ∧ a ≠ "" ∧
        st2.account_number = some a) := by
  constructor
  · intro fn rows stout h
    obtain ⟨st1, buf, hpr, hfin⟩ := parse_ok_elim h
    obtain ⟨-, hacct⟩ := finalize_ok_lines hfin
    exact ⟨st1, buf, hpr, hacct⟩
  · intro st row st2 out h
    exact parse_record_account h

/-- Witness for C9 (amended): a file whose name carries no account token
takes its account id from the held account number of the final state. -/
theorem c9_witness :
    ∃ st1 buf,
      processRows initState [hdrAcct, rowAcct111, rowAcct222] = .ok (st1, buf) ∧
      (getOk defaultStatement
          (parse "history.csv" [hdrAcct, rowAcct111, rowAcct222])).account_id =
        accountIdOf "history.csv" st1.account_number :=
  c9_account_id_source.1 "history.csv" [hdrAcct, rowAcct111, rowAcct222]
    (getOk defaultStatement (parse "history.csv" [hdrAcct, rowAcct111, rowAcct222]))
    (show parse "history.csv" [hdrAcct, rowAcct111, rowAcct222] =
        .ok (getOk defaultStatement
          (parse "history.csv" [hdrAcct, rowAcct111, rowAcct222]))
      from rfl)

/-- C9 (counterexample): with two distinct account numbers observed and a
filename carrying no account token, the claim says account_id stays
unset, but the parser uses the last observed number, 222. -/
theorem c9_counterexample :
    (parse "history.csv" [hdrAcct, rowAcct111, rowAcct222]).map
      (fun s => s.account_id) = .ok (some "222") ∧
    cellOf { initState with column_map := mkColumnMap hdrAcct } rowAcct111
      "Account Number" = some "111" ∧
    cellOf { initState with column_map := mkColumnMap hdrAcct } rowAcct222
      "Account Number" = some "222" ∧
    findAccountToken (pyBasename "history.csv") = none ∧
    ("111" : String) ≠ "222" ∧
    (parse "history.csv" [hdrAcct, rowAcct111, rowAcct222]).map
      (fun s => s.invest_lines.length) = .ok 2 :=
  ⟨rfl, rfl, rfl, rfl, by decide, rfl⟩

/-- C4 (code bug): an Amount cell holding the sentinel "--" makes the
`float(amount)` guard raise, aborting the whole parse instead of skipping
the row — even though the very same file's `parse_decimal` maps "--" to
absent, showing the sentinel was meant to be tolerated. -/
theorem c4_dashes_amount_aborts_parse :
    parse "History_for_Account_123.csv" [hdr13, rowDashAmount, rowSold11] =
      .error () ∧
    pyFloat "--" = none ∧
    parse_decimal (some "--") = .ok none :=
  ⟨rfl, rfl, rfl⟩
